import Mathlib

/-!
# Volume lifecycle of the recovery environment

A shallow embedding of `roots.cpp` (mount, unmount, format of one volume) and of
`install/wipe_data.cpp` (the multi-volume wipe orchestration).

The functions of the two files become state-passing functions over a `World`:
the live mount state, the paths that exist on the root file system, a stream
of outcomes for the operating-system calls whose result the code cannot know
in advance, and the trace of the calls made so far.  Every call into the
operating system, the user interface or the device hooks adds one `Event` to
the trace, together with the value it returned.
-/

namespace Recovery

/-! ## Data model -/

/-- One record of the partition table (`struct fstab_rec`, named `Volume` in `common.h`). -/
structure Volume where
  mount_point : String
  fs_type : String
  blk_device : String
  flags : Nat := 0
  fs_options : Option String := none
  length : Int := 0
  key_loc : Option String := none
  erase_blk_size : Nat := 0
  logical_blk_size : Nat := 0
deriving DecidableEq, Repr

/-- One line of the live mount table: what `scan_mounted_volumes` reports. -/
structure MountedVolume where
  device : String
  mount_point : String
deriving DecidableEq, Repr

/-- A log file held in memory while `/cache` is reformatted. -/
structure saved_log_file where
  name : String
  data : String
deriving DecidableEq, Repr

/-- A call that leaves the process, with the value it returned.  `ok` is true
when the call reported success; `status` of `exec` is the raw wait status that
`waitpid` stored; `result` of `make_ext4fs` is the integer the formatter
returned. -/
inductive Event where
  | mkdir (path : String) (ok : Bool)
  | mount (blk_device mount_point fs_type : String) (flags : Nat)
      (fs_options : Option String) (ok : Bool)
  | umount (mount_point : String) (ok : Bool)
  | ensure_volume_unmounted (blk_device : String) (ok : Bool)
  | open_key (key_loc : String) (ok : Bool)
  | wipe_block_device (key_loc : String) (ok : Bool)
  | make_ext4fs (blk_device : String) (length : Int) (mountpoint : String)
      (directory : Option String) (align : Option (Nat × Nat)) (result : Nat)
  | exec (path : String) (argv : List String) (status : Nat)
  | fopen (path : String) (ok : Bool)
  | remove (path : String)
  | rmdir (path : String)
  | ui_SetBackground_ERASING
  | ui_SetProgressType_INDETERMINATE
  | ui_Print (text : String)
  | ReadLogFilesToMemory
  | RestoreLogFilesAfterFormat (log_files : List saved_log_file)
  | PreWipeData (ok : Bool)
  | PostWipeData (ok : Bool)
deriving DecidableEq, Repr

/-- The part of the machine the code reads and changes.

* `mounts_readable`: whether `scan_mounted_volumes` can read the mount table;
* `mounted`: the live mount table;
* `paths`: the files and directories that exist outside the volumes (the
  ramdisk root, `/tmp`);
* `cache_logs`: the recovery logs currently stored on `/cache`;
* `outcomes`, `tick`: the results of the calls whose outcome is decided by the
  environment, in call order; call number `tick` is the next one.  A value of
  `0` is success, as for a system call; for `waitpid` the value is the wait
  status;
* `trace`: every call made so far, oldest first. -/
structure World where
  mounts_readable : Bool
  mounted : List MountedVolume
  paths : List String
  cache_logs : List saved_log_file
  outcomes : Nat → Nat
  tick : Nat
  trace : List Event

/-- The partition table as the code sees it, the one constant of `cryptfs.h`
the formatter needs, and the width of `ssize_t` on the target (32 or 64
bits).  `roots.cpp` resolves a path with
`fs_mgr_get_entry_for_mount_point(fstab, path)` and `wipe_data.cpp` with
`volume_for_mount_point`; neither routine is part of the sources, so each is a
field here and every theorem below holds for whatever they compute. -/
structure Env where
  volume_for_path : String → Option Volume
  volume_for_mount_point : String → Option Volume
  CRYPT_FOOTER_OFFSET : Int
  SSIZE_BITS : Nat

/-- A table given by its records, each path resolving to the first record with
that very mount point, `CRYPT_FOOTER_OFFSET` at `0x4000` and a 64-bit
`ssize_t`.  Used for the concrete runs below. -/
def Env.ofTable (recs : List Volume) : Env where
  volume_for_path := fun path => recs.find? (fun v => v.mount_point == path)
  volume_for_mount_point := fun path => recs.find? (fun v => v.mount_point == path)
  CRYPT_FOOTER_OFFSET := 16384
  SSIZE_BITS := 64

/-! ## Primitive steps -/

/-- The outcome of the next environment-decided call. -/
def World.draw (w : World) : Nat × World :=
  (w.outcomes w.tick, { w with tick := w.tick + 1 })

/-- Append one call to the trace. -/
def World.emit (e : Event) (w : World) : World :=
  { w with trace := w.trace ++ [e] }

/-- `mkdir(2)`: fails when the environment says so or when the path exists. -/
def sys_mkdir (path : String) (w : World) : Bool × World :=
  let (o, w1) := w.draw
  let ok := decide (o = 0) && !(w1.paths.contains path)
  let w2 := if ok then { w1 with paths := w1.paths ++ [path] } else w1
  (ok, w2.emit (Event.mkdir path ok))

/-- `fopen(path, "wbe")`: creates the file unless the environment refuses. -/
def sys_fopen (path : String) (w : World) : Bool × World :=
  let (o, w1) := w.draw
  let ok := decide (o = 0)
  let w2 := if ok && !(w1.paths.contains path) then { w1 with paths := w1.paths ++ [path] } else w1
  (ok, w2.emit (Event.fopen path ok))

/-- `remove(3)` of a file; the code never looks at its result. -/
def sys_remove (path : String) (w : World) : World :=
  ({ w with paths := w.paths.filter (fun p => p != path) }).emit (Event.remove path)

/-- `rmdir(2)`: removes the directory when nothing is left inside it; the code
never looks at its result. -/
def sys_rmdir (path : String) (w : World) : World :=
  let inside := w.paths.any (fun p => (path.toList ++ ['/']).isPrefixOf p.toList)
  let w1 := if inside then w else { w with paths := w.paths.filter (fun p => p != path) }
  w1.emit (Event.rmdir path)

/-- Modelled from the spec: `scan_mounted_volumes` of `mounts.h`, the scan of
the live mount state; it fails when the mount table cannot be read. -/
def scan_mounted_volumes (w : World) : Bool := w.mounts_readable

/-- Modelled from the spec: `find_mounted_volume_by_mount_point` of
`mounts.h`, the mount record at a mount point, if there is one. -/
def find_mounted_volume_by_mount_point (mount_point : String) (w : World) :
    Option MountedVolume :=
  w.mounted.find? (fun mv => mv.mount_point == mount_point)

/-- `mount(2)`: on success the mount point joins the live mount table. -/
def sys_mount (v : Volume) (mount_point : String) (w : World) : Int × World :=
  let (o, w1) := w.draw
  let ok := decide (o = 0)
  let w2 := if ok then
      { w1 with mounted := w1.mounted ++ [{ device := v.blk_device, mount_point := mount_point }] }
    else w1
  (if ok then 0 else -1,
    w2.emit (Event.mount v.blk_device mount_point v.fs_type v.flags v.fs_options ok))

/-- Modelled from the spec: `unmount_mounted_volume` of `mounts.h`, the raw
unmount of one mount point.  The mount state is a set of mounted mount
points, and a successful unmount takes the mount point out of it. -/
def unmount_mounted_volume (mv : MountedVolume) (w : World) : Int × World :=
  let (o, w1) := w.draw
  let ok := decide (o = 0)
  let w2 := if ok then
      { w1 with mounted := w1.mounted.filter (fun m => m.mount_point != mv.mount_point) }
    else w1
  (if ok then 0 else -1, w2.emit (Event.umount mv.mount_point ok))

/-- `WIFEXITED(status)`: the child ended by itself rather than by a signal. -/
def WIFEXITED (status : Nat) : Bool := (status &&& 0x7f) == 0

/-- `WEXITSTATUS(status)`: bits 8 to 15 of the wait status. -/
def WEXITSTATUS (status : Nat) : Nat := (status >>> 8) &&& 0xff

/-! ## `roots.cpp` -/

namespace Roots

/-- `volume_for_path` (roots.cpp:65). -/
def volume_for_path (env : Env) (path : String) : Option Volume :=
  env.volume_for_path path

/-- `ensure_path_mounted_at` (roots.cpp:70). -/
def ensure_path_mounted_at (env : Env) (path : String) (mount_point : Option String)
    (w : World) : Int × World :=
  match volume_for_path env path with
  | none => (-1, w)
  | some v =>
    if v.fs_type = "ramdisk" then (0, w)
    else if !scan_mounted_volumes w then (-1, w)
    else
      let mount_point := mount_point.getD v.mount_point
      match find_mounted_volume_by_mount_point mount_point w with
      | some _ => (0, w)
      | none =>
        let w1 := (sys_mkdir mount_point w).2
        if v.fs_type = "ext4" ∨ v.fs_type = "squashfs" ∨ v.fs_type = "vfat" then
          let (r, w2) := sys_mount v mount_point w1
          if r = -1 then (-1, w2) else (0, w2)
        else (-1, w1)

/-- `ensure_path_mounted` (roots.cpp:111). -/
def ensure_path_mounted (env : Env) (path : String) (w : World) : Int × World :=
  ensure_path_mounted_at env path none w

/-- `ensure_path_unmounted` (roots.cpp:116). -/
def ensure_path_unmounted (env : Env) (path : String) (w : World) : Int × World :=
  match volume_for_path env path with
  | none => (-1, w)
  | some v =>
    if v.fs_type = "ramdisk" then (-1, w)
    else if !scan_mounted_volumes w then (-1, w)
    else
      match find_mounted_volume_by_mount_point v.mount_point w with
      | none => (0, w)
      | some mv => unmount_mounted_volume mv w

/-- `exec_cmd` (roots.cpp:141): run the program and return `WEXITSTATUS` of
the wait status, whatever `WIFEXITED` says. -/
def exec_cmd (path : String) (argv : List String) (w : World) : Nat × World :=
  let (status, w1) := w.draw
  (WEXITSTATUS status, w1.emit (Event.exec path argv status))

/-- The value an integer takes in an `ssize_t` of `bits` bits (two's
complement): itself when it fits, else what is left after wrapping. -/
def to_ssize (bits : Nat) (x : Int) : Int :=
  (x + 2 ^ (bits - 1)) % 2 ^ bits - 2 ^ (bits - 1)

/-- `snprintf(buf, 20, "%zd", x)`: the decimal numeral of `x`, cut to the 19
characters that fit in the buffer before the closing zero byte. -/
def snprintf_zd (x : Int) : String :=
  String.mk ((toString x).toList.take 19)

/-- The `ssize_t length` handed to the formatter (roots.cpp:190-195):
`v->length`, a `long long`, converted to `ssize_t` when it is not zero. -/
def format_length (env : Env) (v : Volume) : Int :=
  if v.length ≠ 0 then to_ssize env.SSIZE_BITS v.length
  else if v.key_loc = some "footer" then to_ssize env.SSIZE_BITS (-env.CRYPT_FOOTER_OFFSET)
  else 0

/-- The argument vector of `mkfs.f2fs` (roots.cpp:205-219), without the
closing null pointer.  `length` is the `ssize_t` of `format_length`; `-length`
is an `ssize_t` again (the smallest value is its own negation), and
`length / 512` is taken for `length ≥ 0` only, where every rounding
convention agrees.  Both numbers go through `snprintf` into `char[20]`. -/
def f2fs_argv (bits : Nat) (blk_device : String) (length : Int) : List String :=
  if length < 0 then
    ["mkfs.f2fs", "-t1", "-r", snprintf_zd (to_ssize bits (-length)), blk_device]
  else
    ["mkfs.f2fs", "-t1", blk_device, snprintf_zd (length / 512)]

/-- The ext4 formatter call (roots.cpp:197-203). -/
def make_ext4fs (v : Volume) (length : Int) (volume : String) (directory : Option String)
    (w : World) : Nat × World :=
  let (result, w1) := w.draw
  let align := if v.erase_blk_size ≠ 0 ∧ v.logical_blk_size ≠ 0 then
      some (v.erase_blk_size, v.logical_blk_size) else none
  (result, w1.emit (Event.make_ext4fs v.blk_device length volume directory align result))

/-- The key-location block of `format_volume` (roots.cpp:179-188): when
`key_loc` starts with `/`, open it and zero-fill it.  The result is false when
`open` failed; what `wipe_block_device` returned is dropped by the code. -/
def wipe_key_loc (v : Volume) (w : World) : Bool × World :=
  match v.key_loc with
  | none => (true, w)
  | some key_loc =>
    if key_loc.toList.head? = some '/' then
      let (o, w1) := w.draw
      if o ≠ 0 then (false, w1.emit (Event.open_key key_loc false))
      else
        let w2 := w1.emit (Event.open_key key_loc true)
        let (z, w3) := w2.draw
        (true, w3.emit (Event.wipe_block_device key_loc (decide (z = 0))))
    else (true, w)

/-- `format_volume(volume, directory)` (roots.cpp:155). -/
def format_volume (env : Env) (volume : String) (directory : Option String)
    (w : World) : Int × World :=
  match volume_for_path env volume with
  | none => (-1, w)
  | some v =>
    if v.fs_type = "ramdisk" then (-1, w)
    else if v.mount_point ≠ volume then (-1, w)
    else
      let (r, w1) := ensure_path_unmounted env volume w
      if r ≠ 0 then (-1, w1)
      else if v.fs_type = "ext4" ∨ v.fs_type = "f2fs" then
        let (opened, w2) := wipe_key_loc v w1
        if !opened then (-1, w2)
        else
          let length := format_length env v
          let (result, w3) :=
            if v.fs_type = "ext4" then make_ext4fs v length volume directory w2
            else exec_cmd "/sbin/mkfs.f2fs" (f2fs_argv env.SSIZE_BITS v.blk_device length) w2
          if result ≠ 0 then (-1, w3) else (0, w3)
      else (-1, w1)

end Roots

/-! ## `install/wipe_data.cpp` -/

namespace Install

open Roots (ensure_path_mounted format_volume)

/-- `CACHE_ROOT` (wipe_data.cpp:38). -/
def CACHE_ROOT : String := "/cache"

/-- `DATA_ROOT` (wipe_data.cpp:39). -/
def DATA_ROOT : String := "/data"

/-- `METADATA_ROOT` (wipe_data.cpp:40). -/
def METADATA_ROOT : String := "/metadata"

/-- `WIPE_EXCLUDE_PATH` (wipe_data.cpp:42). -/
def WIPE_EXCLUDE_PATH : String := "/data/media"

/-- `CONVERT_FBE_DIR` (wipe_data.cpp:68). -/
def CONVERT_FBE_DIR : String := "/tmp/convert_fbe"

/-- `CONVERT_FBE_FILE` (wipe_data.cpp:69). -/
def CONVERT_FBE_FILE : String := "/tmp/convert_fbe/convert_fbe"

/-- Modelled from the spec: `ReadLogFilesToMemory` of `otautil/logging.h`,
which captures the existing logs of `/cache` into memory. -/
def ReadLogFilesToMemory (w : World) : List saved_log_file × World :=
  (w.cache_logs, w.emit Event.ReadLogFilesToMemory)

/-- Modelled from the spec: `RestoreLogFilesAfterFormat` of
`otautil/logging.h`, which writes the captured logs back to `/cache`. -/
def RestoreLogFilesAfterFormat (log_files : List saved_log_file) (w : World) : World :=
  ({ w with cache_logs := log_files }).emit (Event.RestoreLogFilesAfterFormat log_files)

/-- Modelled from the spec: `ensure_volume_unmounted` of `otautil/roots.h`,
the force-unmount of a backing device: `0` when nothing stays mounted from
the device, `-1` when the unmount failed. -/
def ensure_volume_unmounted (blk_device : String) (w : World) : Int × World :=
  let (o, w1) := w.draw
  let ok := decide (o = 0)
  let w2 := if ok then
      { w1 with mounted := w1.mounted.filter (fun m => m.device != blk_device) }
    else w1
  (if ok then 0 else -1, w2.emit (Event.ensure_volume_unmounted blk_device ok))

/-- `Device::PreWipeData()`, a hook of the device; its answer comes from the
environment. -/
def PreWipeData (w : World) : Bool × World :=
  let (o, w1) := w.draw
  (decide (o = 0), w1.emit (Event.PreWipeData (decide (o = 0))))

/-- `Device::PostWipeData()`, a hook of the device; its answer comes from the
environment. -/
def PostWipeData (w : World) : Bool × World :=
  let (o, w1) := w.draw
  (decide (o = 0), w1.emit (Event.PostWipeData (decide (o = 0))))

/-- `ui->Print`. -/
def ui_Print (text : String) (w : World) : World := w.emit (Event.ui_Print text)

/-- The text of `"Data wipe %s.\n"` with `success ? "complete" : "failed"`. -/
def data_wipe_line (success : Bool) : String :=
  "Data wipe " ++ (if success then "complete" else "failed") ++ ".\n"

/-- The text of `"Formatting %s...\n"`. -/
def formatting_line (volume : String) : String :=
  "Formatting " ++ volume ++ "...\n"

/-- The end of `EraseVolume` (wipe_data.cpp:89-93): restore the logs when the
volume is `/cache`, and report whether the formatter returned `0`. -/
def EraseVolume_finish (is_cache : Bool) (log_files : List saved_log_file) (result : Int)
    (w : World) : Bool × World :=
  let w1 := if is_cache then RestoreLogFilesAfterFormat log_files w else w
  (decide (result = 0), w1)

/-- `EraseVolume` (wipe_data.cpp:44).  The result is `none` when the volume is
not in the table: the code then reads `vol->blk_device` through a null
pointer. -/
def EraseVolume (env : Env) (volume : String) (convert_fbe : Bool) (w : World) :
    Option (Bool × World) :=
  let is_cache := volume == CACHE_ROOT
  let is_data := volume == DATA_ROOT
  let w1 := (w.emit Event.ui_SetBackground_ERASING).emit Event.ui_SetProgressType_INDETERMINATE
  let logs := if is_cache then ReadLogFilesToMemory w1 else ([], w1)
  let log_files := logs.1
  let w2 := ui_Print (formatting_line volume) logs.2
  match env.volume_for_mount_point volume with
  | none => none
  | some vol =>
    let unmounted := ensure_volume_unmounted vol.blk_device w2
    if unmounted.1 = -1 then some (false, unmounted.2)
    else if is_data && convert_fbe then
      let made := sys_mkdir CONVERT_FBE_DIR unmounted.2
      if made.1 = false then some (false, made.2)
      else
        let f := sys_fopen CONVERT_FBE_FILE made.2
        if f.1 = false then some (false, f.2)
        else
          let formatted := format_volume env volume (some CONVERT_FBE_DIR) f.2
          let w3 := sys_rmdir CONVERT_FBE_DIR (sys_remove CONVERT_FBE_FILE formatted.2)
          some (EraseVolume_finish is_cache log_files formatted.1 w3)
    else
      let formatted := format_volume env volume none unmounted.2
      some (EraseVolume_finish is_cache log_files formatted.1 formatted.2)

/-- `exec_cmd` (wipe_data.cpp:96): `none` when `CHECK(!args.empty())` aborts;
otherwise run `args[0]` and return `WEXITSTATUS` of the wait status. -/
def exec_cmd (args : List String) (w : World) : Option (Nat × World) :=
  if args.isEmpty then none
  else
    let (status, w1) := w.draw
    some (WEXITSTATUS status, w1.emit (Event.exec (args.headD "") args status))

/-- The three erase steps of `WipeData` (wipe_data.cpp:136-143), run after a
successful `PreWipeData`: `/data`, then `/cache` and `/metadata` when the
table has them.  The result is the conjunction of the steps. -/
def WipeData_erase (env : Env) (convert_fbe : Bool) (w : World) : Option (Bool × World) :=
  match EraseVolume env DATA_ROOT convert_fbe w with
  | none => none
  | some data =>
    let cache : Option (Bool × World) :=
      if (env.volume_for_mount_point "/cache").isSome then
        match EraseVolume env CACHE_ROOT false data.2 with
        | none => none
        | some c => some (data.1 && c.1, c.2)
      else some data
    match cache with
    | none => none
    | some s =>
      if (env.volume_for_mount_point METADATA_ROOT).isSome then
        match EraseVolume env METADATA_ROOT false s.2 with
        | none => none
        | some m => some (s.1 && m.1, m.2)
      else some s

/-- `WipeData` (wipe_data.cpp:131). -/
def WipeData (env : Env) (convert_fbe : Bool) (w : World) : Option (Bool × World) :=
  let w0 := ui_Print "\n-- Wiping data...\n" w
  let pre := PreWipeData w0
  let erased : Option (Bool × World) :=
    if pre.1 then WipeData_erase env convert_fbe pre.2 else some (false, pre.2)
  match erased with
  | none => none
  | some s =>
    let post := if s.1 then PostWipeData s.2 else (false, s.2)
    some (post.1,
      ui_Print (data_wipe_line post.1) post.2)

/-- The argument vector of the file-deletion pass (wipe_data.cpp:171). -/
def delete_files_args : List String :=
  ["/system/bin/find", DATA_ROOT, "-type", "f", "!", "-path", WIPE_EXCLUDE_PATH, "-delete"]

/-- The argument vector of the directory-deletion pass (wipe_data.cpp:174). -/
def delete_dirs_args : List String :=
  ["/system/bin/find", DATA_ROOT, "-type", "d", "!", "-path", WIPE_EXCLUDE_PATH, "-delete"]

/-- `WipeDataExcludeMedia` (wipe_data.cpp:163).  `confirm_func` is `none` for
an empty `std::function`. -/
def WipeDataExcludeMedia (env : Env) (confirm_func : Option (World → Bool × World))
    (w : World) : Option (Bool × World) :=
  let (confirmed, w0) :=
    match confirm_func with
    | none => (true, w)
    | some ask => ask w
  if !confirmed then some (false, w0)
  else
    let w1 := ui_Print "\n-- Wiping data without internal storage...\n" w0
    let (r, w2) := ensure_path_mounted env DATA_ROOT w1
    let done : Option (Bool × World) :=
      if r = 0 then
        match exec_cmd delete_files_args w2 with
        | none => none
        | some (files, w3) =>
          match exec_cmd delete_dirs_args w3 with
          | none => none
          | some (_, w4) => some (decide (files = 0), w4)
      else some (false, w2)
    match done with
    | none => none
    | some (success, w5) =>
      some (success, ui_Print (data_wipe_line success) w5)

end Install

/-! ## The deletion passes of `WipeDataExcludeMedia`

`/system/bin/find` is not part of the sources.  What follows is `find` as its
manual describes it, for the one shape of command line the code launches:
`find ROOT -type C ! -path PATTERN -delete`. -/

namespace Find

/-- What a path names. -/
inductive Kind where
  | file
  | dir
  | other
deriving DecidableEq, Repr

/-- One entry of a file tree. -/
structure Node where
  path : String
  kind : Kind
deriving DecidableEq, Repr

/-- `fnmatch(pattern, string, 0)`, which `-path` applies to the whole path of
an entry, for patterns made of ordinary characters, `?` and `*`.  No flag is
set, so `/` is an ordinary character. -/
def fnmatch : List Char → List Char → Bool
  | [], s => s.isEmpty
  | c :: p, s =>
    if c = '*' then s.tails.any (fun t => fnmatch p t)
    else
      match s with
      | [] => false
      | d :: r => (c = '?' || c == d) && fnmatch p r

/-- The test `-type C`. -/
def type_is (c : String) (k : Kind) : Bool :=
  (c == "f" && k == Kind.file) || (c == "d" && k == Kind.dir)

/-- Whether `path` is `dir` itself or lies below it. -/
def at_or_under (dir path : String) : Bool :=
  path == dir || (dir.toList ++ ['/']).isPrefixOf path.toList

/-- Whether `path` lies strictly below `dir`. -/
def strictly_under (dir path : String) : Bool :=
  (dir.toList ++ ['/']).isPrefixOf path.toList

/-- The expression `-type C ! -path PATTERN` on one entry: whether `-delete`
is reached. -/
def selected (c pattern : String) (n : Node) : Bool :=
  type_is c n.kind && !(fnmatch pattern.toList n.path.toList)

/-- One visit of `-delete`: `unlink` for a file, `rmdir` for a directory.
`rmdir` fails on the search root, which is the mount point of the mounted
volume, and on a directory while something is left below it. -/
def delete_node (root : String) (left : List Node) (n : Node) : List Node :=
  if n.kind = Kind.dir
      ∧ (n.path = root ∨ left.any (fun m => strictly_under n.path m.path)) then left
  else left.filter (fun m => m != n)

/-- The entries `find` visits, in the order `-delete` implies (`-depth`: what
is below a directory comes before the directory). -/
def visit_order (root : String) (tree : List Node) : List Node :=
  (tree.filter (fun n => at_or_under root n.path)).insertionSort
    (fun a b => b.path.length ≤ a.path.length)

/-- The run of `find ROOT -type C ! -path PATTERN -delete` on the file tree of
the volume mounted at `ROOT`: the entries that are left.  Any other command
line leaves the tree alone. -/
def run (argv : List String) (tree : List Node) : List Node :=
  match argv with
  | [_, root, t, c, bang, p, pattern, d] =>
    if t = "-type" ∧ bang = "!" ∧ p = "-path" ∧ d = "-delete" then
      (visit_order root tree).foldl
        (fun left n => if selected c pattern n then delete_node root left n else left) tree
    else tree
  | _ => tree

end Find

/-! ## Traces -/

/-- The calls made between an earlier state of the world and a later one. -/
def emitted (w w' : World) : List Event := w'.trace.drop w.trace.length

/-- The later state has the trace of the earlier one, followed by calls that
all satisfy `P`. -/
def Extends (P : Event → Prop) (w w' : World) : Prop :=
  ∃ evs, w'.trace = w.trace ++ evs ∧ ∀ e ∈ evs, P e

/-- A `mkdir` call. -/
def Event.is_mkdir : Event → Bool
  | Event.mkdir _ _ => true
  | _ => false

/-- A `mount` system call. -/
def Event.is_mount : Event → Bool
  | Event.mount _ _ _ _ _ _ => true
  | _ => false

/-- An unmount of a mount point. -/
def Event.is_umount : Event → Bool
  | Event.umount _ _ => true
  | _ => false

/-- An open or a zero-fill of a key location. -/
def Event.is_key : Event → Bool
  | Event.open_key _ _ => true
  | Event.wipe_block_device _ _ => true
  | _ => false

/-- A formatter call: `make_ext4fs`, or a program run by `exec_cmd`. -/
def Event.is_formatter : Event → Bool
  | Event.make_ext4fs _ _ _ _ _ _ => true
  | Event.exec _ _ _ => true
  | _ => false

/-- A call of a device hook. -/
def Event.is_hook : Event → Bool
  | Event.PreWipeData _ => true
  | Event.PostWipeData _ => true
  | _ => false

/-- The calls of the key-location block when `open` succeeds: none when
`key_loc` is not an absolute path, else the open and the wipe. -/
def KeyEvents (v : Volume) (ks : List Event) : Prop :=
  (ks = [] ∧ ¬ ∃ k, v.key_loc = some k ∧ k.toList.head? = some '/')
    ∨ ∃ k z, v.key_loc = some k ∧ k.toList.head? = some '/'
        ∧ ks = [Event.open_key k true, Event.wipe_block_device k z]

/-- The one formatter call of `format_volume` and the result that follows
from what the formatter returned. -/
def FormatterEvent (env : Env) (v : Volume) (volume : String) (directory : Option String)
    (f : Event) (r : Int) : Prop :=
  (v.fs_type = "ext4" ∧ ∃ result,
      f = Event.make_ext4fs v.blk_device (Roots.format_length env v) volume directory
            (if v.erase_blk_size ≠ 0 ∧ v.logical_blk_size ≠ 0 then
              some (v.erase_blk_size, v.logical_blk_size) else none) result
        ∧ r = if result = 0 then 0 else -1)
    ∨ (v.fs_type = "f2fs" ∧ ∃ status,
      f = Event.exec "/sbin/mkfs.f2fs"
            (Roots.f2fs_argv env.SSIZE_BITS v.blk_device (Roots.format_length env v)) status
        ∧ r = if WEXITSTATUS status = 0 then 0 else -1)

/-- The calls `format_volume` can make. -/
def Event.from_format (e : Event) : Bool :=
  e.is_umount || e.is_key || e.is_formatter

/-- The calls `EraseVolume` can make after the forced unmount. -/
def Event.inside_erase : Event → Bool
  | Event.mkdir _ _ => true
  | Event.fopen _ _ => true
  | Event.remove _ => true
  | Event.rmdir _ => true
  | Event.RestoreLogFilesAfterFormat _ => true
  | e => e.from_format

/-- The calls `EraseVolume` makes before the forced unmount
(wipe_data.cpp:48-58). -/
def erase_head (volume : String) : List Event :=
  [Event.ui_SetBackground_ERASING, Event.ui_SetProgressType_INDETERMINATE]
    ++ (if volume == Install.CACHE_ROOT then [Event.ReadLogFilesToMemory] else [])
    ++ [Event.ui_Print (Install.formatting_line volume)]

/-- The state in which `EraseVolume` looks the volume up: only the trace has
moved on. -/
def erase_start (volume : String) (w : World) : World :=
  { w with trace := w.trace ++ erase_head volume }

/-! ## Concrete tables and worlds -/

/-- A world in which the mount table is readable, nothing exists on the root
file system, `/cache` holds one log, no call has been made, and the calls to
come have the outcomes `outs` in order (`0`, success, once the list ends). -/
def World.start (mounted : List MountedVolume) (outs : List Nat) : World where
  mounts_readable := true
  mounted := mounted
  paths := []
  cache_logs := [{ name := "/cache/recovery/last_log", data := "I:boot" }]
  outcomes := fun n => outs.getD n 0
  tick := 0
  trace := []

/-- A table with ext4 `/data` and `/cache` and the ramdisk `/tmp`. -/
def table_ext4 : Env :=
  Env.ofTable [
    { mount_point := "/data", fs_type := "ext4", blk_device := "/dev/block/userdata" },
    { mount_point := "/cache", fs_type := "ext4", blk_device := "/dev/block/cache" },
    { mount_point := "/tmp", fs_type := "ramdisk", blk_device := "ramdisk" }]

/-- A table with f2fs `/data` and the ramdisk `/tmp`. -/
def table_f2fs : Env :=
  Env.ofTable [
    { mount_point := "/data", fs_type := "f2fs", blk_device := "/dev/block/userdata" },
    { mount_point := "/tmp", fs_type := "ramdisk", blk_device := "ramdisk" }]

/-- A table whose ext4 `/data` keeps its encryption metadata on a device of
its own. -/
def table_keyed : Env :=
  Env.ofTable [
    { mount_point := "/data", fs_type := "ext4", blk_device := "/dev/block/userdata",
      key_loc := some "/dev/block/metadata" }]

/-- A table whose f2fs `/data` keeps its encryption footer at the end of the
partition. -/
def table_footer : Env :=
  Env.ofTable [
    { mount_point := "/data", fs_type := "f2fs", blk_device := "/dev/block/userdata",
      key_loc := some "footer" }]

/-- The ext4 table seen through a lookup that, like a prefix lookup, resolves
every path at or below `/data` to the `/data` record. -/
def table_nested : Env :=
  { table_ext4 with
    volume_for_path := fun path =>
      if Find.at_or_under "/data" path then table_ext4.volume_for_path "/data"
      else table_ext4.volume_for_path path }

/-- A table whose f2fs `/data` has the smallest 64-bit length. -/
def table_f2fs_min : Env :=
  Env.ofTable [
    { mount_point := "/data", fs_type := "f2fs", blk_device := "/dev/block/userdata",
      length := -9223372036854775808 }]

/-- A table for a target with a 32-bit `ssize_t`, whose f2fs `/data` has a
length of `2^32 + 1024` bytes. -/
def table_f2fs_32 : Env :=
  { Env.ofTable [
      { mount_point := "/data", fs_type := "f2fs", blk_device := "/dev/block/userdata",
        length := 4294968320 }] with
    SSIZE_BITS := 32 }

/-- A table with a vfat card. -/
def table_vfat : Env :=
  Env.ofTable [
    { mount_point := "/sdcard", fs_type := "vfat", blk_device := "/dev/block/mmcblk1p1" }]

/-- A file tree under `/data` with one photo in the media subtree and one
application file outside it. -/
def sample_tree : List Find.Node :=
  [{ path := "/data", kind := Find.Kind.dir },
   { path := "/data/media", kind := Find.Kind.dir },
   { path := "/data/media/0", kind := Find.Kind.dir },
   { path := "/data/media/0/photo.jpg", kind := Find.Kind.file },
   { path := "/data/app", kind := Find.Kind.dir },
   { path := "/data/app/base.apk", kind := Find.Kind.file }]

end Recovery

/-! ## Proofs -/

namespace Recovery

open Roots Install

theorem emitted_of_trace_eq {w w' : World} {evs : List Event}
    (h : w'.trace = w.trace ++ evs) : emitted w w' = evs := by
  simp [emitted, h]

theorem emitted_self (w : World) : emitted w w = [] := by
  simp [emitted]

theorem Extends.refl (P : Event → Prop) (w : World) : Extends P w w :=
  ⟨[], by simp, by simp⟩

/-! ### `roots.cpp` -/

theorem unmount_mounted_volume_extends (mv : MountedVolume) (w : World) :
    Extends (fun e => e.is_umount = true) w (unmount_mounted_volume mv w).2 := by
  unfold unmount_mounted_volume
  by_cases h : w.outcomes w.tick = 0
  · refine ⟨[Event.umount mv.mount_point true], ?_, ?_⟩ <;>
      simp [World.draw, World.emit, h, Event.is_umount]
  · refine ⟨[Event.umount mv.mount_point false], ?_, ?_⟩ <;>
      simp [World.draw, World.emit, h, Event.is_umount]

theorem ensure_path_unmounted_extends (env : Env) (path : String) (w : World) :
    Extends (fun e => e.is_umount = true) w (ensure_path_unmounted env path w).2 := by
  unfold ensure_path_unmounted
  split
  · exact Extends.refl _ _
  · split
    · exact Extends.refl _ _
    · split
      · exact Extends.refl _ _
      · split
        · exact Extends.refl _ _
        · exact unmount_mounted_volume_extends _ _

@[simp] theorem sys_mkdir_mounted (p : String) (w : World) :
    (sys_mkdir p w).2.mounted = w.mounted := by
  unfold sys_mkdir
  simp only [World.draw, World.emit]
  split <;> rfl

@[simp] theorem sys_mkdir_readable (p : String) (w : World) :
    (sys_mkdir p w).2.mounts_readable = w.mounts_readable := by
  unfold sys_mkdir
  simp only [World.draw, World.emit]
  split <;> rfl

theorem sys_mkdir_trace (p : String) (w : World) :
    (sys_mkdir p w).2.trace = w.trace ++ [Event.mkdir p (sys_mkdir p w).1] := by
  unfold sys_mkdir
  simp only [World.draw, World.emit]
  split <;> rfl

theorem sys_mount_trace (v : Volume) (mp : String) (w : World) :
    (sys_mount v mp w).2.trace = w.trace ++
      [Event.mount v.blk_device mp v.fs_type v.flags v.fs_options
        (decide ((sys_mount v mp w).1 = 0))] := by
  unfold sys_mount
  by_cases h : w.outcomes w.tick = 0 <;> simp [World.draw, World.emit, h]

@[simp] theorem sys_mount_readable (v : Volume) (mp : String) (w : World) :
    (sys_mount v mp w).2.mounts_readable = w.mounts_readable := by
  unfold sys_mount
  by_cases h : w.outcomes w.tick = 0 <;> simp [World.draw, World.emit, h]

theorem sys_mount_result (v : Volume) (mp : String) (w : World) :
    ((sys_mount v mp w).1 = 0
        ∧ (sys_mount v mp w).2.mounted = w.mounted ++ [{ device := v.blk_device, mount_point := mp }])
      ∨ (sys_mount v mp w).1 = -1 := by
  unfold sys_mount
  by_cases h : w.outcomes w.tick = 0 <;> simp [World.draw, World.emit, h]

theorem unmount_mounted_volume_result (mv : MountedVolume) (w : World) :
    ((unmount_mounted_volume mv w).1 = 0
        ∧ (unmount_mounted_volume mv w).2.mounted
            = w.mounted.filter (fun m => m.mount_point != mv.mount_point)
        ∧ (unmount_mounted_volume mv w).2.mounts_readable = w.mounts_readable)
      ∨ (unmount_mounted_volume mv w).1 = -1 := by
  unfold unmount_mounted_volume
  by_cases h : w.outcomes w.tick = 0 <;> simp [World.draw, World.emit, h]

theorem unmount_mounted_volume_trace (mv : MountedVolume) (w : World) :
    (unmount_mounted_volume mv w).2.trace = w.trace ++
      [Event.umount mv.mount_point (decide ((unmount_mounted_volume mv w).1 = 0))] := by
  unfold unmount_mounted_volume
  by_cases h : w.outcomes w.tick = 0 <;> simp [World.draw, World.emit, h]

/-- When the volume is a ramdisk, or the mount table is readable and shows the
mount point, `ensure_path_mounted` succeeds and leaves the world as it is. -/
theorem ensure_path_mounted_noop (env : Env) (path : String) (w : World) (v : Volume)
    (hv : volume_for_path env path = some v)
    (h : v.fs_type = "ramdisk" ∨
      (scan_mounted_volumes w = true
        ∧ (find_mounted_volume_by_mount_point v.mount_point w).isSome = true)) :
    ensure_path_mounted env path w = (0, w) := by
  unfold ensure_path_mounted ensure_path_mounted_at
  simp only [hv]
  by_cases hr : v.fs_type = "ramdisk"
  · simp [hr]
  · rcases h with h | ⟨hs, hf⟩
    · exact absurd h hr
    · obtain ⟨mv, hmv⟩ := Option.isSome_iff_exists.mp hf
      simp [hr, hs, hmv]

/-- What a successful `ensure_path_mounted` leaves behind. -/
theorem ensure_path_mounted_post (env : Env) (path : String) (w : World)
    (h : (ensure_path_mounted env path w).1 = 0) :
    ∃ v, volume_for_path env path = some v ∧
      (v.fs_type = "ramdisk" ∨
        (scan_mounted_volumes (ensure_path_mounted env path w).2 = true
          ∧ (find_mounted_volume_by_mount_point v.mount_point
              (ensure_path_mounted env path w).2).isSome = true)) := by
  unfold ensure_path_mounted ensure_path_mounted_at at *
  cases hv : volume_for_path env path with
  | none => simp [hv] at h
  | some v =>
    refine ⟨v, rfl, ?_⟩
    simp only [hv] at h ⊢
    by_cases hr : v.fs_type = "ramdisk"
    · exact Or.inl hr
    · right
      simp only [hr, if_false] at h ⊢
      cases hs : scan_mounted_volumes w with
      | false => simp [hs] at h
      | true =>
        simp only [hs, Option.getD_none] at h ⊢
        cases hf : find_mounted_volume_by_mount_point v.mount_point w with
        | some mv => simp [hf, hs]
        | none =>
          simp only [hf] at h ⊢
          by_cases hfs : v.fs_type = "ext4" ∨ v.fs_type = "squashfs" ∨ v.fs_type = "vfat"
          · simp only [hfs, if_true] at h ⊢
            rcases sys_mount_result v v.mount_point (sys_mkdir v.mount_point w).2 with ⟨h0, hm⟩ | h1
            · have hs2 : w.mounts_readable = true := hs
              simp [h0, scan_mounted_volumes, find_mounted_volume_by_mount_point, hm, hs2,
                List.find?_append]
            · simp [h1] at h
          · simp [hfs] at h

/-- One call of `ensure_path_mounted` issues at most one `mount`. -/
theorem ensure_path_mounted_mounts (env : Env) (path : String) (w : World) :
    ((emitted w (ensure_path_mounted env path w).2).filter Event.is_mount).length ≤ 1 := by
  unfold ensure_path_mounted ensure_path_mounted_at
  cases hv : volume_for_path env path with
  | none => simp [emitted_self]
  | some v =>
    simp only []
    by_cases hr : v.fs_type = "ramdisk"
    · simp [hr, emitted_self]
    · simp only [hr, if_false]
      cases hs : scan_mounted_volumes w with
      | false => simp [emitted_self]
      | true =>
        simp only [Option.getD_none]
        cases hf : find_mounted_volume_by_mount_point v.mount_point w with
        | some mv => simp [emitted_self]
        | none =>
          simp only []
          by_cases hfs : v.fs_type = "ext4" ∨ v.fs_type = "squashfs" ∨ v.fs_type = "vfat"
          · simp only [hfs, if_true, Bool.not_true, Bool.false_eq_true, if_false]
            have ht := sys_mount_trace v v.mount_point (sys_mkdir v.mount_point w).2
            rw [sys_mkdir_trace, List.append_assoc] at ht
            have he := emitted_of_trace_eq ht
            split <;> simp [he, List.filter, Event.is_mount]
          · simp [hfs, emitted_of_trace_eq (sys_mkdir_trace _ _), List.filter, Event.is_mount]

/-- What one call of `ensure_path_unmounted` does: nothing, or one unmount of
the volume's mount point. -/
theorem ensure_path_unmounted_emitted (env : Env) (path : String) (w : World) (v : Volume)
    (hv : volume_for_path env path = some v) :
    ensure_path_unmounted env path w = (-1, w)
      ∨ ensure_path_unmounted env path w = (0, w)
      ∨ ∃ ok, emitted w (ensure_path_unmounted env path w).2
          = [Event.umount v.mount_point ok] := by
  unfold ensure_path_unmounted
  simp only [hv]
  by_cases hr : v.fs_type = "ramdisk"
  · simp [hr]
  · simp only [hr, if_false]
    cases hs : scan_mounted_volumes w with
    | false => simp
    | true =>
      simp only [Bool.not_true, Bool.false_eq_true, if_false]
      cases hf : find_mounted_volume_by_mount_point v.mount_point w with
      | none => simp
      | some mv =>
        simp only []
        right; right
        have hmv : mv.mount_point = v.mount_point := by
          have := List.find?_some hf
          simpa using this
        refine ⟨decide ((unmount_mounted_volume mv w).1 = 0), ?_⟩
        rw [emitted_of_trace_eq (unmount_mounted_volume_trace mv w), hmv]

/-- When the mount table is readable and does not show the mount point,
`ensure_path_unmounted` succeeds and leaves the world as it is. -/
theorem ensure_path_unmounted_noop (env : Env) (path : String) (w : World) (v : Volume)
    (hv : volume_for_path env path = some v) (hr : v.fs_type ≠ "ramdisk")
    (hs : scan_mounted_volumes w = true)
    (hf : find_mounted_volume_by_mount_point v.mount_point w = none) :
    ensure_path_unmounted env path w = (0, w) := by
  unfold ensure_path_unmounted
  simp [hv, hr, hs, hf]

/-- What a successful `ensure_path_unmounted` leaves behind. -/
theorem ensure_path_unmounted_post (env : Env) (path : String) (w : World)
    (h : (ensure_path_unmounted env path w).1 = 0) :
    ∃ v, volume_for_path env path = some v ∧ v.fs_type ≠ "ramdisk"
      ∧ scan_mounted_volumes (ensure_path_unmounted env path w).2 = true
      ∧ find_mounted_volume_by_mount_point v.mount_point
          (ensure_path_unmounted env path w).2 = none := by
  unfold ensure_path_unmounted at *
  cases hv : volume_for_path env path with
  | none => simp [hv] at h
  | some v =>
    simp only [hv] at h ⊢
    by_cases hr : v.fs_type = "ramdisk"
    · simp [hr] at h
    · refine ⟨v, rfl, hr, ?_⟩
      simp only [hr, if_false] at h ⊢
      cases hs : scan_mounted_volumes w with
      | false => simp [hs] at h
      | true =>
        simp only [hs] at h ⊢
        cases hf : find_mounted_volume_by_mount_point v.mount_point w with
        | none => simp [hf, hs]
        | some mv =>
          simp only [hf] at h ⊢
          have hmv : mv.mount_point = v.mount_point := by
            have := List.find?_some hf
            simpa using this
          rcases unmount_mounted_volume_result mv w with ⟨_, hm, hread⟩ | h1
          · have hs2 : w.mounts_readable = true := hs
            simp [scan_mounted_volumes, find_mounted_volume_by_mount_point, hm, hread, hs2, hmv]
          · simp [h1] at h

/-- One call of `ensure_path_unmounted` issues at most one unmount. -/
theorem ensure_path_unmounted_umounts (env : Env) (path : String) (w : World) :
    ((emitted w (ensure_path_unmounted env path w).2).filter Event.is_umount).length ≤ 1 := by
  unfold ensure_path_unmounted
  cases hv : volume_for_path env path with
  | none => simp [emitted_self]
  | some v =>
    simp only []
    by_cases hr : v.fs_type = "ramdisk"
    · simp [hr, emitted_self]
    · simp only [hr, if_false]
      cases hs : scan_mounted_volumes w with
      | false => simp [emitted_self]
      | true =>
        simp only [Bool.not_true, Bool.false_eq_true, if_false]
        cases hf : find_mounted_volume_by_mount_point v.mount_point w with
        | none => simp [emitted_self]
        | some mv =>
          simp [emitted_of_trace_eq (unmount_mounted_volume_trace mv w), List.filter,
            Event.is_umount]

theorem wipe_key_loc_shape (v : Volume) (w : World) :
    ((wipe_key_loc v w).1 = false ∧ ∃ k, v.key_loc = some k ∧ k.toList.head? = some '/'
        ∧ (wipe_key_loc v w).2.trace = w.trace ++ [Event.open_key k false])
      ∨ ((wipe_key_loc v w).1 = true ∧ ∃ ks, KeyEvents v ks
        ∧ (wipe_key_loc v w).2.trace = w.trace ++ ks) := by
  unfold wipe_key_loc
  cases hk : v.key_loc with
  | none =>
    right
    exact ⟨rfl, [], Or.inl ⟨rfl, by simp [hk]⟩, by simp⟩
  | some k =>
    simp only []
    by_cases ha : k.toList.head? = some '/'
    · simp only [ha, if_true]
      by_cases ho : w.outcomes w.tick = 0
      · right
        refine ⟨by simp [World.draw, ho],
          [Event.open_key k true,
            Event.wipe_block_device k (decide (w.outcomes (w.tick + 1) = 0))],
          Or.inr ⟨k, decide (w.outcomes (w.tick + 1) = 0), hk, ha, rfl⟩, ?_⟩
        simp [World.draw, World.emit, ho]
      · left
        refine ⟨by simp [World.draw, ho], k, rfl, ha, ?_⟩
        simp [World.draw, World.emit, ho]
    · right
      simp only [ha, if_false]
      refine ⟨by simp, [], Or.inl ⟨rfl, ?_⟩, by simp⟩
      rintro ⟨k2, h1, h2⟩
      rw [hk] at h1
      cases h1
      exact ha h2

theorem formatter_shape (env : Env) (v : Volume) (volume : String)
    (directory : Option String) (w : World) (hfs : v.fs_type = "ext4" ∨ v.fs_type = "f2fs") :
    ∃ f result w', (if v.fs_type = "ext4" then
          make_ext4fs v (format_length env v) volume directory w
        else Roots.exec_cmd "/sbin/mkfs.f2fs"
          (f2fs_argv env.SSIZE_BITS v.blk_device (format_length env v)) w)
          = (result, w')
      ∧ w'.trace = w.trace ++ [f]
      ∧ FormatterEvent env v volume directory f (if result ≠ 0 then -1 else 0) := by
  by_cases h4 : v.fs_type = "ext4"
  · simp only [h4, if_true]
    refine ⟨_, _, _, rfl, ?_, Or.inl ⟨h4, w.outcomes w.tick, rfl, ?_⟩⟩
    · simp [make_ext4fs, World.draw, World.emit]
    · by_cases hz : w.outcomes w.tick = 0 <;> simp [make_ext4fs, World.draw, hz]
  · have h2 : v.fs_type = "f2fs" := by
      rcases hfs with h | h
      · exact absurd h h4
      · exact h
    simp only [h4, if_false]
    refine ⟨_, _, _, rfl, ?_, Or.inr ⟨h2, w.outcomes w.tick, rfl, ?_⟩⟩
    · simp [Roots.exec_cmd, World.draw, World.emit]
    · by_cases hz : WEXITSTATUS (w.outcomes w.tick) = 0 <;>
        simp [Roots.exec_cmd, World.draw, hz]

/-- The shape of every run of `format_volume`: some unmount calls, then either
nothing more (with failure), or a failed open of the key location (with
failure), or the calls of the key-location block and one formatter call. -/
theorem format_volume_shape (env : Env) (volume : String) (directory : Option String)
    (w : World) :
    ∃ us : List Event, (∀ e ∈ us, e.is_umount = true) ∧
      (((format_volume env volume directory w).1 = -1
          ∧ (format_volume env volume directory w).2.trace = w.trace ++ us)
        ∨ (∃ v k, volume_for_path env volume = some v
          ∧ (v.fs_type = "ext4" ∨ v.fs_type = "f2fs")
          ∧ v.key_loc = some k ∧ k.toList.head? = some '/'
          ∧ (format_volume env volume directory w).1 = -1
          ∧ (format_volume env volume directory w).2.trace
              = w.trace ++ (us ++ [Event.open_key k false]))
        ∨ (∃ v ks f, volume_for_path env volume = some v
          ∧ KeyEvents v ks
          ∧ FormatterEvent env v volume directory f (format_volume env volume directory w).1
          ∧ (format_volume env volume directory w).2.trace = w.trace ++ (us ++ (ks ++ [f])))) := by
  unfold format_volume
  cases hv : volume_for_path env volume with
  | none => exact ⟨[], by simp, Or.inl ⟨rfl, by simp⟩⟩
  | some v =>
    simp only []
    by_cases hr : v.fs_type = "ramdisk"
    · exact ⟨[], by simp, Or.inl ⟨by simp [hr], by simp [hr]⟩⟩
    · simp only [hr, if_false]
      by_cases hp : v.mount_point = volume
      · simp only [hp, ne_eq, not_true_eq_false, if_false]
        obtain ⟨us, hus, hall⟩ := ensure_path_unmounted_extends env volume w
        refine ⟨us, hall, ?_⟩
        by_cases h0 : (ensure_path_unmounted env volume w).1 = 0
        · simp only [h0, not_true_eq_false, if_false]
          by_cases hfs : v.fs_type = "ext4" ∨ v.fs_type = "f2fs"
          · simp only [hfs, if_true]
            rcases wipe_key_loc_shape v (ensure_path_unmounted env volume w).2 with
              ⟨hk1, k, hk, ha, ht⟩ | ⟨hk1, ks, hks, ht⟩
            · right; left
              refine ⟨v, k, rfl, hfs, hk, ha, by simp [hk1], ?_⟩
              simp [hk1, ht, hus]
            · right; right
              obtain ⟨f, result, w', he, hft, hfe⟩ :=
                formatter_shape env v volume directory
                  (wipe_key_loc v (ensure_path_unmounted env volume w).2).2 hfs
              refine ⟨v, ks, f, rfl, hks, ?_, ?_⟩
              · simp only [hk1, he, Bool.not_true, Bool.false_eq_true, if_false]
                split <;> simp_all
              · simp only [hk1, he, Bool.not_true, Bool.false_eq_true, if_false]
                split <;> simp [hft, ht, hus]
          · simp only [hfs, if_false]
            exact Or.inl ⟨trivial, hus⟩
        · simp only [h0, not_false_eq_true, if_true]
          exact Or.inl ⟨trivial, hus⟩
      · simp only [ne_eq, hp, not_false_eq_true, if_true]
        exact ⟨[], by simp, Or.inl ⟨trivial, by simp⟩⟩

theorem format_volume_extends (env : Env) (volume : String) (directory : Option String)
    (w : World) :
    Extends (fun e => e.from_format = true) w (format_volume env volume directory w).2 := by
  obtain ⟨us, hus, h⟩ := format_volume_shape env volume directory w
  have hu : ∀ e ∈ us, e.from_format = true := fun e he => by simp [Event.from_format, hus e he]
  rcases h with ⟨_, ht⟩ | ⟨v, k, _, _, _, _, _, ht⟩ | ⟨v, ks, f, _, hks, hf, ht⟩
  · exact ⟨us, ht, hu⟩
  · refine ⟨_, ht, ?_⟩
    intro e he
    rcases List.mem_append.mp he with h | h
    · exact hu e h
    · simp at h
      subst h
      rfl
  · refine ⟨_, ht, ?_⟩
    intro e he
    rcases List.mem_append.mp he with h | h
    · exact hu e h
    · rcases List.mem_append.mp h with h | h
      · rcases hks with ⟨rfl, _⟩ | ⟨k, z, _, _, rfl⟩
        · simp at h
        · simp at h
          rcases h with rfl | rfl <;> rfl
      · simp at h
        subst h
        rcases hf with ⟨_, result, rfl, _⟩ | ⟨_, status, rfl, _⟩ <;> rfl

theorem ensure_volume_unmounted_shape (dev : String) (w : World) :
    ∃ ok : Bool, (ensure_volume_unmounted dev w).1 = (if ok then 0 else -1)
      ∧ (ensure_volume_unmounted dev w).2.trace
          = w.trace ++ [Event.ensure_volume_unmounted dev ok] := by
  unfold Install.ensure_volume_unmounted
  by_cases h : w.outcomes w.tick = 0
  · exact ⟨true, by simp [World.draw, World.emit, h]⟩
  · exact ⟨false, by simp [World.draw, World.emit, h]⟩

theorem sys_fopen_trace (p : String) (w : World) :
    (sys_fopen p w).2.trace = w.trace ++ [Event.fopen p (sys_fopen p w).1] := by
  unfold sys_fopen
  simp only [World.draw, World.emit]
  split <;> rfl

theorem sys_remove_trace (p : String) (w : World) :
    (sys_remove p w).trace = w.trace ++ [Event.remove p] := by
  simp [sys_remove, World.emit]

theorem sys_rmdir_trace (p : String) (w : World) :
    (sys_rmdir p w).trace = w.trace ++ [Event.rmdir p] := by
  unfold sys_rmdir
  simp only [World.emit]
  split <;> rfl

theorem erase_start_eq (volume : String) (w : World) :
    ui_Print (formatting_line volume)
        (if (volume == CACHE_ROOT) = true then
          ReadLogFilesToMemory ((w.emit Event.ui_SetBackground_ERASING).emit
            Event.ui_SetProgressType_INDETERMINATE)
        else ([], (w.emit Event.ui_SetBackground_ERASING).emit
            Event.ui_SetProgressType_INDETERMINATE)).2
      = erase_start volume w := by
  by_cases hc : (volume == CACHE_ROOT) = true <;>
    simp [erase_start, erase_head, hc, ui_Print, ReadLogFilesToMemory, World.emit]

theorem erase_logs_eq (volume : String) (w : World) :
    (if (volume == CACHE_ROOT) = true then
          ReadLogFilesToMemory ((w.emit Event.ui_SetBackground_ERASING).emit
            Event.ui_SetProgressType_INDETERMINATE)
        else ([], (w.emit Event.ui_SetBackground_ERASING).emit
            Event.ui_SetProgressType_INDETERMINATE)).1
      = if (volume == CACHE_ROOT) = true then w.cache_logs else [] := by
  by_cases hc : (volume == CACHE_ROOT) = true <;>
    simp [hc, ReadLogFilesToMemory, World.emit]

/-- `EraseVolume` from the state in which it looks the volume up. -/
theorem EraseVolume_eq (env : Env) (volume : String) (convert_fbe : Bool) (w : World) :
    EraseVolume env volume convert_fbe w =
      match env.volume_for_mount_point volume with
      | none => none
      | some vol =>
        if (ensure_volume_unmounted vol.blk_device (erase_start volume w)).1 = -1 then
          some (false, (ensure_volume_unmounted vol.blk_device (erase_start volume w)).2)
        else if (volume == DATA_ROOT && convert_fbe) = true then
          (let w4 := (ensure_volume_unmounted vol.blk_device (erase_start volume w)).2
           if (sys_mkdir CONVERT_FBE_DIR w4).1 = false then
             some (false, (sys_mkdir CONVERT_FBE_DIR w4).2)
           else
             let w5 := (sys_mkdir CONVERT_FBE_DIR w4).2
             if (sys_fopen CONVERT_FBE_FILE w5).1 = false then
               some (false, (sys_fopen CONVERT_FBE_FILE w5).2)
             else
               let w6 := (sys_fopen CONVERT_FBE_FILE w5).2
               let fr := format_volume env volume (some CONVERT_FBE_DIR) w6
               some (EraseVolume_finish (volume == CACHE_ROOT)
                 (if (volume == CACHE_ROOT) = true then w.cache_logs else []) fr.1
                 (sys_rmdir CONVERT_FBE_DIR (sys_remove CONVERT_FBE_FILE fr.2))))
        else
          let fr := format_volume env volume none
            (ensure_volume_unmounted vol.blk_device (erase_start volume w)).2
          some (EraseVolume_finish (volume == CACHE_ROOT)
            (if (volume == CACHE_ROOT) = true then w.cache_logs else []) fr.1 fr.2) := by
  unfold EraseVolume
  simp only [erase_start_eq, erase_logs_eq]

theorem from_format_inside_erase (e : Event) (h : e.from_format = true) :
    e.inside_erase = true := by
  cases e <;> simp_all [Event.inside_erase, Event.from_format, Event.is_umount, Event.is_key,
    Event.is_formatter]

theorem erase_start_trace (volume : String) (w : World) :
    (erase_start volume w).trace = w.trace ++ erase_head volume := rfl

/-- The shape of every run of `EraseVolume` on a volume of the table: the
opening calls, the forced unmount, and then nothing when that failed. -/
theorem EraseVolume_shape (env : Env) (volume : String) (convert_fbe : Bool) (w : World)
    (vol : Volume) (hv : env.volume_for_mount_point volume = some vol) :
    ∃ r w' ok rest, EraseVolume env volume convert_fbe w = some (r, w')
      ∧ w'.trace = w.trace ++
          (erase_head volume ++ (Event.ensure_volume_unmounted vol.blk_device ok :: rest))
      ∧ (∀ e ∈ rest, e.inside_erase = true)
      ∧ (ok = false → r = false ∧ rest = [])
      ∧ (ok = true → volume = CACHE_ROOT →
          ∃ mid, rest = mid ++ [Event.RestoreLogFilesAfterFormat w.cache_logs]
            ∧ ∀ e ∈ mid, e.from_format = true) := by
  rw [EraseVolume_eq]
  simp only [hv]
  obtain ⟨ok, hr, ht⟩ := ensure_volume_unmounted_shape vol.blk_device (erase_start volume w)
  rw [erase_start_trace] at ht
  cases ok with
  | false =>
    simp only [Bool.false_eq_true, if_false] at hr
    simp only [hr, if_true]
    exact ⟨_, _, false, [], rfl, by simp [ht], by simp, by simp, by simp⟩
  | true =>
    simp only [if_true] at hr
    have hne : ¬ ((0 : Int) = -1) := by decide
    simp only [hr, hne, if_false]
    by_cases hfbe : (volume == DATA_ROOT && convert_fbe) = true
    · simp only [hfbe, if_true]
      have hvd : volume = DATA_ROOT := by
        simp only [Bool.and_eq_true, beq_iff_eq] at hfbe
        exact hfbe.1
      have hnc : (volume == CACHE_ROOT) = false := by
        rw [hvd]
        decide
      have hnc2 : volume ≠ CACHE_ROOT := by
        rw [hvd]
        decide
      have hmk := sys_mkdir_trace CONVERT_FBE_DIR
        (ensure_volume_unmounted vol.blk_device (erase_start volume w)).2
      rw [ht] at hmk
      by_cases hm : (sys_mkdir CONVERT_FBE_DIR
          (ensure_volume_unmounted vol.blk_device (erase_start volume w)).2).1 = false
      · simp only [hm, if_true]
        refine ⟨_, _, true, [Event.mkdir CONVERT_FBE_DIR false], rfl, ?_, ?_, by simp, ?_⟩
        · rw [hmk, hm]
          simp
        · simp [Event.inside_erase]
        · intro _ h
          exact absurd h hnc2
      · have hm1 : (sys_mkdir CONVERT_FBE_DIR
            (ensure_volume_unmounted vol.blk_device (erase_start volume w)).2).1 = true := by
          simpa using hm
        rw [hm1] at hmk
        simp only [hm1, Bool.true_eq_false, if_false]
        have hfo := sys_fopen_trace CONVERT_FBE_FILE (sys_mkdir CONVERT_FBE_DIR
          (ensure_volume_unmounted vol.blk_device (erase_start volume w)).2).2
        rw [hmk] at hfo
        by_cases hf : (sys_fopen CONVERT_FBE_FILE (sys_mkdir CONVERT_FBE_DIR
            (ensure_volume_unmounted vol.blk_device (erase_start volume w)).2).2).1 = false
        · simp only [hf, if_true]
          refine ⟨_, _, true,
            [Event.mkdir CONVERT_FBE_DIR true, Event.fopen CONVERT_FBE_FILE false],
            rfl, ?_, ?_, by simp, ?_⟩
          · rw [hfo, hf]
            simp
          · simp [Event.inside_erase]
          · intro _ h
            exact absurd h hnc2
        · have hf1 : (sys_fopen CONVERT_FBE_FILE (sys_mkdir CONVERT_FBE_DIR
              (ensure_volume_unmounted vol.blk_device (erase_start volume w)).2).2).1 = true := by
            simpa using hf
          rw [hf1] at hfo
          simp only [hf1, Bool.true_eq_false, if_false]
          obtain ⟨fe, hft, hfall⟩ := format_volume_extends env volume (some CONVERT_FBE_DIR)
            (sys_fopen CONVERT_FBE_FILE (sys_mkdir CONVERT_FBE_DIR
              (ensure_volume_unmounted vol.blk_device (erase_start volume w)).2).2).2
          rw [hfo] at hft
          refine ⟨_, _, true,
            [Event.mkdir CONVERT_FBE_DIR true, Event.fopen CONVERT_FBE_FILE true]
            ++ fe ++ [Event.remove CONVERT_FBE_FILE, Event.rmdir CONVERT_FBE_DIR],
            rfl, ?_, ?_, by simp, ?_⟩
          · simp [EraseVolume_finish, hnc, sys_rmdir_trace, sys_remove_trace, hft]
          · intro e he
            simp only [List.mem_append, List.mem_cons, List.mem_singleton, List.not_mem_nil,
              or_false] at he
            rcases he with ((rfl | rfl) | h) | (rfl | rfl)
            · rfl
            · rfl
            · exact from_format_inside_erase e (hfall e h)
            · rfl
            · rfl
          · intro _ h
            exact absurd h hnc2
    · simp only [hfbe, if_false]
      obtain ⟨fe, hft, hfall⟩ := format_volume_extends env volume none
        (ensure_volume_unmounted vol.blk_device (erase_start volume w)).2
      rw [ht] at hft
      by_cases hc : volume = CACHE_ROOT
      · have hc2 : (volume == CACHE_ROOT) = true := by simp [hc]
        refine ⟨_, _, true, fe ++ [Event.RestoreLogFilesAfterFormat w.cache_logs],
          rfl, ?_, ?_, by simp, ?_⟩
        · simp [EraseVolume_finish, hc2, RestoreLogFilesAfterFormat, World.emit, hft]
        · intro e he
          rcases List.mem_append.mp he with h | h
          · exact from_format_inside_erase e (hfall e h)
          · simp at h
            subst h
            rfl
        · intro _ _
          exact ⟨fe, rfl, hfall⟩
      · have hc2 : (volume == CACHE_ROOT) = false := by simp [hc]
        refine ⟨_, _, true, fe, rfl, ?_, ?_, by simp, ?_⟩
        · simp [EraseVolume_finish, hc2, hft]
        · intro e he
          exact from_format_inside_erase e (hfall e he)
        · intro _ h
          exact absurd h hc

theorem inside_erase_not_hook (e : Event) (h : e.inside_erase = true) :
    e.is_hook = false := by
  cases e <;> simp_all [Event.inside_erase, Event.is_hook, Event.from_format, Event.is_umount,
    Event.is_key, Event.is_formatter]

/-- Every run of `EraseVolume` on a volume of the table returns, prints its
progress line, and calls no device hook. -/
theorem EraseVolume_trace (env : Env) (volume : String) (convert_fbe : Bool) (w : World)
    (vol : Volume) (hv : env.volume_for_mount_point volume = some vol) :
    ∃ r w' evs, EraseVolume env volume convert_fbe w = some (r, w')
      ∧ w'.trace = w.trace ++ evs
      ∧ Event.ui_Print (formatting_line volume) ∈ evs
      ∧ ∀ e ∈ evs, e.is_hook = false := by
  obtain ⟨r, w', ok, rest, he, ht, hall, _, _⟩ :=
    EraseVolume_shape env volume convert_fbe w vol hv
  refine ⟨r, w', _, he, ht, ?_, ?_⟩
  · simp [erase_head]
  · intro e hmem
    rcases List.mem_append.mp hmem with h | h
    · simp only [erase_head, List.mem_append, List.mem_cons, List.mem_singleton,
        List.not_mem_nil, or_false] at h
      rcases h with ((rfl | rfl) | h) | rfl
      · rfl
      · rfl
      · split at h
        · simp at h
          subst h
          rfl
        · simp at h
      · rfl
    · rcases List.mem_cons.mp h with rfl | h
      · rfl
      · exact inside_erase_not_hook e (hall e h)

theorem ite_and_left {p : Prop} [Decidable p] {A B C D : Prop}
    (h : if p then A ∧ B else C ∧ D) : if p then A else C := by
  by_cases hp : p
  · rw [if_pos hp] at h ⊢
    exact h.1
  · rw [if_neg hp] at h ⊢
    exact h.1

theorem ui_Print_trace (text : String) (w : World) :
    (ui_Print text w).trace = w.trace ++ [Event.ui_Print text] := rfl

theorem PreWipeData_trace (w : World) :
    (PreWipeData w).2.trace = w.trace ++ [Event.PreWipeData (PreWipeData w).1] := by
  simp [PreWipeData, World.draw, World.emit]

theorem PostWipeData_trace (w : World) :
    (PostWipeData w).2.trace = w.trace ++ [Event.PostWipeData (PostWipeData w).1] := by
  simp [PostWipeData, World.draw, World.emit]

/-- The erase steps of `WipeData`, one after the other: each one on a volume
of the table returns, and the result is the conjunction of the three. -/
theorem WipeData_erase_run (env : Env) (convert_fbe : Bool) (w : World)
    (hdata : (env.volume_for_mount_point DATA_ROOT).isSome = true) :
    ∃ (d c m : Bool) (wd wc wm : World) (ed ec em : List Event),
      EraseVolume env DATA_ROOT convert_fbe w = some (d, wd)
      ∧ wd.trace = w.trace ++ ed
      ∧ Event.ui_Print (formatting_line DATA_ROOT) ∈ ed
      ∧ (if (env.volume_for_mount_point "/cache").isSome = true then
          EraseVolume env CACHE_ROOT false wd = some (c, wc)
            ∧ Event.ui_Print (formatting_line CACHE_ROOT) ∈ ec
        else (c, wc) = (true, wd) ∧ ec = [])
      ∧ wc.trace = wd.trace ++ ec
      ∧ (if (env.volume_for_mount_point METADATA_ROOT).isSome = true then
          EraseVolume env METADATA_ROOT false wc = some (m, wm)
            ∧ Event.ui_Print (formatting_line METADATA_ROOT) ∈ em
        else (m, wm) = (true, wc) ∧ em = [])
      ∧ wm.trace = wc.trace ++ em
      ∧ (∀ e ∈ ed ++ ec ++ em, e.is_hook = false)
      ∧ WipeData_erase env convert_fbe w = some (d && c && m, wm) := by
  obtain ⟨vd, hvd⟩ := Option.isSome_iff_exists.mp hdata
  obtain ⟨d, wd, ed, hed, htd, hfd, hhd⟩ := EraseVolume_trace env DATA_ROOT convert_fbe w vd hvd
  have hc : ∃ (c : Bool) (wc : World) (ec : List Event),
      (if (env.volume_for_mount_point "/cache").isSome = true then
          EraseVolume env CACHE_ROOT false wd = some (c, wc)
            ∧ Event.ui_Print (formatting_line CACHE_ROOT) ∈ ec
        else (c, wc) = (true, wd) ∧ ec = [])
      ∧ wc.trace = wd.trace ++ ec ∧ (∀ e ∈ ec, e.is_hook = false) := by
    by_cases h : (env.volume_for_mount_point "/cache").isSome = true
    · obtain ⟨vc, hvc⟩ := Option.isSome_iff_exists.mp h
      obtain ⟨c, wc, ec, hec, htc, hfc, hhc⟩ := EraseVolume_trace env CACHE_ROOT false wd vc hvc
      exact ⟨c, wc, ec, by simp only [h, if_true]; exact ⟨hec, hfc⟩, htc, hhc⟩
    · exact ⟨true, wd, [], by simp [h], by simp, by simp⟩
  obtain ⟨c, wc, ec, hcs, htc, hhc⟩ := hc
  have hm : ∃ (m : Bool) (wm : World) (em : List Event),
      (if (env.volume_for_mount_point METADATA_ROOT).isSome = true then
          EraseVolume env METADATA_ROOT false wc = some (m, wm)
            ∧ Event.ui_Print (formatting_line METADATA_ROOT) ∈ em
        else (m, wm) = (true, wc) ∧ em = [])
      ∧ wm.trace = wc.trace ++ em ∧ (∀ e ∈ em, e.is_hook = false) := by
    by_cases h : (env.volume_for_mount_point METADATA_ROOT).isSome = true
    · obtain ⟨vm, hvm⟩ := Option.isSome_iff_exists.mp h
      obtain ⟨m, wm, em, hem, htm, hfm, hhm⟩ :=
        EraseVolume_trace env METADATA_ROOT false wc vm hvm
      exact ⟨m, wm, em, by simp only [h, if_true]; exact ⟨hem, hfm⟩, htm, hhm⟩
    · exact ⟨true, wc, [], by simp [h], by simp, by simp⟩
  obtain ⟨m, wm, em, hms, htm, hhm⟩ := hm
  refine ⟨d, c, m, wd, wc, wm, ed, ec, em, hed, htd, hfd, hcs, htc, hms, htm, ?_, ?_⟩
  · intro e he
    simp only [List.mem_append] at he
    rcases he with (h | h) | h
    · exact hhd e h
    · exact hhc e h
    · exact hhm e h
  · unfold WipeData_erase
    simp only [hed]
    by_cases h1 : (env.volume_for_mount_point "/cache").isSome = true
    · simp only [h1, if_true] at hcs ⊢
      simp only [hcs.1]
      by_cases h2 : (env.volume_for_mount_point METADATA_ROOT).isSome = true
      · simp only [h2, if_true] at hms ⊢
        simp only [hms.1]
      · simp only [h2, if_false] at hms ⊢
        simp only [Prod.mk.injEq] at hms
        simp [hms.1.1, hms.1.2]
    · simp only [h1, if_false] at hcs ⊢
      simp only [Prod.mk.injEq] at hcs
      obtain ⟨⟨rfl, rfl⟩, _⟩ := hcs
      by_cases h2 : (env.volume_for_mount_point METADATA_ROOT).isSome = true
      · simp only [h2, if_true] at hms ⊢
        simp [hms.1]
      · simp only [h2, if_false] at hms ⊢
        simp only [Prod.mk.injEq] at hms
        simp [hms.1.1, hms.1.2]

/-- Every run of `WipeData` on a table with `/data`: the steps, their outcomes,
the result and the trace. -/
theorem WipeData_run (env : Env) (convert_fbe : Bool) (w : World)
    (hdata : (env.volume_for_mount_point DATA_ROOT).isSome = true) :
    ∃ (r d c m : Bool) (w' wd wc wm : World) (ed ec em : List Event),
      EraseVolume env DATA_ROOT convert_fbe
          (PreWipeData (ui_Print "\n-- Wiping data...\n" w)).2 = some (d, wd)
      ∧ Event.ui_Print (formatting_line DATA_ROOT) ∈ ed
      ∧ (if (env.volume_for_mount_point "/cache").isSome = true then
          EraseVolume env CACHE_ROOT false wd = some (c, wc)
            ∧ Event.ui_Print (formatting_line CACHE_ROOT) ∈ ec
        else (c, wc) = (true, wd) ∧ ec = [])
      ∧ (if (env.volume_for_mount_point METADATA_ROOT).isSome = true then
          EraseVolume env METADATA_ROOT false wc = some (m, wm)
            ∧ Event.ui_Print (formatting_line METADATA_ROOT) ∈ em
        else (m, wm) = (true, wc) ∧ em = [])
      ∧ (∀ e ∈ ed ++ ec ++ em, e.is_hook = false)
      ∧ WipeData env convert_fbe w = some (r, w')
      ∧ r = ((PreWipeData (ui_Print "\n-- Wiping data...\n" w)).1 && d && c && m
              && (PostWipeData wm).1)
      ∧ w'.trace = w.trace ++
          ([Event.ui_Print "\n-- Wiping data...\n",
              Event.PreWipeData (PreWipeData (ui_Print "\n-- Wiping data...\n" w)).1]
            ++ (if (PreWipeData (ui_Print "\n-- Wiping data...\n" w)).1 = true then
                  ed ++ ec ++ em
                    ++ (if (d && c && m) = true then
                          [Event.PostWipeData (PostWipeData wm).1] else [])
                else [])
            ++ [Event.ui_Print (data_wipe_line r)]) := by
  obtain ⟨d, c, m, wd, wc, wm, ed, ec, em, hed, htd, hfd, hcs, htc, hms, htm, hh, hrun⟩ :=
    WipeData_erase_run env convert_fbe (PreWipeData (ui_Print "\n-- Wiping data...\n" w)).2 hdata
  have hpt := PreWipeData_trace (ui_Print "\n-- Wiping data...\n" w)
  have hu : (ui_Print "\n-- Wiping data...\n" w).trace
      = w.trace ++ [Event.ui_Print "\n-- Wiping data...\n"] := rfl
  rw [hu] at hpt
  have hcs' := hcs
  have hms' := hms
  by_cases hp : (PreWipeData (ui_Print "\n-- Wiping data...\n" w)).1 = true
  · by_cases hall : (d && c && m) = true
    · refine ⟨(PostWipeData wm).1, d, c, m,
        ui_Print (data_wipe_line (PostWipeData wm).1) (PostWipeData wm).2,
        wd, wc, wm, ed, ec, em, hed, hfd, hcs', hms', hh, ?_, ?_, ?_⟩
      · unfold WipeData
        simp only [hp, if_true, hrun, hall]
      · simp [hp, hall]
      · rw [ui_Print_trace, PostWipeData_trace, htm, htc, htd, hpt]
        simp [hp, hall]
    · refine ⟨false, d, c, m, ui_Print (data_wipe_line false) wm, wd, wc, wm, ed, ec, em,
        hed, hfd, hcs', hms', hh, ?_, ?_, ?_⟩
      · unfold WipeData
        simp only [hp, if_true, hrun, hall]
        simp
      · simp [hp, hall]
      · rw [ui_Print_trace, htm, htc, htd, hpt]
        simp [hp, hall]
  · refine ⟨false, d, c, m,
      ui_Print (data_wipe_line false) (PreWipeData (ui_Print "\n-- Wiping data...\n" w)).2,
      wd, wc, wm, ed, ec, em, hed, hfd, hcs', hms', hh, ?_, ?_, ?_⟩
    · unfold WipeData
      simp only [hp]
      simp
    · simp [hp]
    · rw [ui_Print_trace, hpt]
      simp [hp]

/-! ### The deletion passes -/

/-- A pattern without `*` and `?` matches exactly itself. -/
theorem fnmatch_literal (p s : List Char) (hp : ∀ c ∈ p, c ≠ '*' ∧ c ≠ '?') :
    Find.fnmatch p s = decide (s = p) := by
  induction p generalizing s with
  | nil => cases s <;> simp [Find.fnmatch]
  | cons c p ih =>
    have hc := hp c (List.mem_cons_self c p)
    have ih2 := fun r => ih r (fun x hx => hp x (List.mem_cons_of_mem c hx))
    cases s with
    | nil => simp [Find.fnmatch, hc.1]
    | cons d r =>
      simp only [Find.fnmatch, hc.1, hc.2, if_false, ih2 r, decide_False, Bool.false_or,
        List.cons.injEq]
      by_cases hcd : c = d
      · subst hcd
        simp
      · have hdc : ¬ d = c := fun h => hcd h.symm
        simp [hcd, hdc]

/-- The test of the file pass: a regular file whose path is not the excluded
path itself. -/
theorem selected_file_pass (n : Find.Node) :
    Find.selected "f" WIPE_EXCLUDE_PATH n
      = (decide (n.kind = Find.Kind.file) && decide (n.path ≠ WIPE_EXCLUDE_PATH)) := by
  have hlit : ∀ c ∈ WIPE_EXCLUDE_PATH.toList, c ≠ '*' ∧ c ≠ '?' := by decide
  have hpath : decide (n.path.toList = WIPE_EXCLUDE_PATH.toList)
      = decide (n.path = WIPE_EXCLUDE_PATH) := by
    by_cases h : n.path = WIPE_EXCLUDE_PATH
    · simp [h]
    · have hd : ¬ n.path.data = WIPE_EXCLUDE_PATH.data := fun h2 => h (String.ext h2)
      simp [h, hd]
  unfold Find.selected Find.type_is
  rw [fnmatch_literal _ _ hlit, hpath]
  cases n.kind <;> simp

/-- Folding the file pass over the visited entries removes the selected ones
among them. -/
theorem foldl_file_pass (visit left : List Find.Node) :
    visit.foldl (fun left n =>
        if Find.selected "f" WIPE_EXCLUDE_PATH n then Find.delete_node DATA_ROOT left n
        else left) left
      = left.filter (fun m => !(decide (m ∈ visit) && Find.selected "f" WIPE_EXCLUDE_PATH m)) := by
  induction visit generalizing left with
  | nil => simp
  | cons n rest ih =>
    simp only [List.foldl_cons]
    rw [ih]
    by_cases hs : Find.selected "f" WIPE_EXCLUDE_PATH n = true
    · have hk : n.kind = Find.Kind.file := by
        rw [selected_file_pass] at hs
        simp only [Bool.and_eq_true, decide_eq_true_eq] at hs
        exact hs.1
      have hfd : ¬ (Find.Kind.file = Find.Kind.dir
          ∧ (n.path = DATA_ROOT
            ∨ (left.any fun m => Find.strictly_under n.path m.path) = true)) :=
        fun h => by cases h.1
      simp only [hs, if_true, Find.delete_node, hk, hfd, if_false, List.filter_filter]
      apply List.filter_congr
      intro m _
      by_cases hmn : m = n
      · subst hmn
        simp [hs]
      · simp [hmn]
    · simp only [hs, Bool.false_eq_true, if_false]
      apply List.filter_congr
      intro m _
      by_cases hmn : m = n
      · subst hmn
        simp [hs]
      · simp [hmn]

/-- What the file pass leaves of any tree: everything but the regular files
at or under `/data` whose path is not `/data/media` itself. -/
theorem file_pass_result (tree : List Find.Node) :
    Find.run delete_files_args tree
      = tree.filter (fun m => !(Find.at_or_under DATA_ROOT m.path
          && decide (m.kind = Find.Kind.file) && decide (m.path ≠ WIPE_EXCLUDE_PATH))) := by
  have hrun : Find.run delete_files_args tree
      = (Find.visit_order DATA_ROOT tree).foldl (fun left n =>
          if Find.selected "f" WIPE_EXCLUDE_PATH n then Find.delete_node DATA_ROOT left n
          else left)
          tree := by
    simp [Find.run, delete_files_args]
  rw [hrun, foldl_file_pass]
  apply List.filter_congr
  intro m hm
  have hmem : m ∈ Find.visit_order DATA_ROOT tree ↔ Find.at_or_under DATA_ROOT m.path = true := by
    unfold Find.visit_order
    rw [(List.perm_insertionSort _ _).mem_iff, List.mem_filter]
    simp [hm]
  rw [selected_file_pass]
  by_cases hu : Find.at_or_under DATA_ROOT m.path = true
  · simp [hmem.mpr hu, hu]
  · have : m ∉ Find.visit_order DATA_ROOT tree := fun h => hu (hmem.mp h)
    simp [this, hu]

/-! ### `ssize_t` and `%zd` -/

theorem to_ssize_of_fits (bits : Nat) (hb : bits = 32 ∨ bits = 64) (x : Int)
    (hlo : -(2 ^ (bits - 1)) ≤ x) (hhi : x < 2 ^ (bits - 1)) : to_ssize bits x = x := by
  unfold to_ssize
  rcases hb with rfl | rfl
  · norm_num at hlo hhi ⊢
    omega
  · norm_num at hlo hhi ⊢
    omega

theorem to_ssize_range (bits : Nat) (hb : bits = 32 ∨ bits = 64) (x : Int) :
    -(2 ^ (bits - 1)) ≤ to_ssize bits x ∧ to_ssize bits x < 2 ^ (bits - 1)
      ∧ to_ssize bits x < 2 ^ 63 := by
  unfold to_ssize
  rcases hb with rfl | rfl
  · norm_num
    omega
  · norm_num
    omega

theorem format_length_range (env : Env) (v : Volume)
    (hb : env.SSIZE_BITS = 32 ∨ env.SSIZE_BITS = 64) :
    -(2 ^ (env.SSIZE_BITS - 1)) ≤ format_length env v
      ∧ format_length env v < 2 ^ (env.SSIZE_BITS - 1)
      ∧ format_length env v < 2 ^ 63 := by
  unfold format_length
  split
  · exact to_ssize_range _ hb _
  · split
    · exact to_ssize_range _ hb _
    · rcases hb with h | h <;> rw [h] <;> norm_num

theorem toDigitsCore_length_le (fuel n : Nat) (ds : List Char) (k : Nat)
    (hk : n < 10 ^ k) (hk1 : 1 ≤ k) :
    (Nat.toDigitsCore 10 fuel n ds).length ≤ ds.length + k := by
  induction fuel generalizing n ds k with
  | zero => simp [Nat.toDigitsCore]
  | succ fuel ih =>
    simp only [Nat.toDigitsCore]
    split
    · simp only [List.length_cons]
      omega
    · rename_i hne
      have hk2 : 2 ≤ k := by
        by_contra hlt
        have : k = 1 := by omega
        subst this
        have : n / 10 = 0 := by omega
        exact hne this
      have hdiv : n / 10 < 10 ^ (k - 1) := by
        have : 10 ^ k = 10 * 10 ^ (k - 1) := by
          rw [← pow_succ']
          congr 1
          omega
        rw [this] at hk
        exact Nat.div_lt_of_lt_mul hk
      have := ih (n / 10) (Nat.digitChar (n % 10) :: ds) (k - 1) hdiv (by omega)
      simp only [List.length_cons] at this
      omega

/-- A non-negative `ssize_t` has at most 19 digits: `snprintf` into `char[20]`
keeps all of them. -/
theorem snprintf_zd_of_nonneg (x : Int) (h0 : 0 ≤ x) (h1 : x < 2 ^ 63) :
    snprintf_zd x = toString x := by
  obtain ⟨n, rfl⟩ := Int.eq_ofNat_of_zero_le h0
  have hn : n < 10 ^ 19 := by
    have : (n : Int) < 2 ^ 63 := h1
    have h2 : n < 2 ^ 63 := by exact_mod_cast this
    omega
  have hlen : (Nat.toDigits 10 n).length ≤ 19 := by
    have := toDigitsCore_length_le (n + 1) n [] 19 hn (by omega)
    simpa [Nat.toDigits] using this
  show String.mk ((Nat.repr n).toList.take 19) = Nat.repr n
  unfold Nat.repr
  simp only [List.asString, String.toList]
  rw [List.take_of_length_le hlen]

/-- The argument vector of `mkfs.f2fs` by the sign of the format length. -/
theorem f2fs_argv_cases (env : Env) (v : Volume)
    (hb : env.SSIZE_BITS = 32 ∨ env.SSIZE_BITS = 64) :
    (format_length env v < 0 → format_length env v ≠ -(2 ^ (env.SSIZE_BITS - 1)) →
        f2fs_argv env.SSIZE_BITS v.blk_device (format_length env v)
          = ["mkfs.f2fs", "-t1", "-r", toString (-format_length env v), v.blk_device])
    ∧ (0 < format_length env v →
        f2fs_argv env.SSIZE_BITS v.blk_device (format_length env v)
          = ["mkfs.f2fs", "-t1", v.blk_device, toString (format_length env v / 512)])
    ∧ (format_length env v = 0 →
        f2fs_argv env.SSIZE_BITS v.blk_device (format_length env v)
          = ["mkfs.f2fs", "-t1", v.blk_device, "0"]) := by
  obtain ⟨hlo, hhi, h63⟩ := format_length_range env v hb
  refine ⟨?_, ?_, ?_⟩
  · intro hneg hmin
    have hfit : to_ssize env.SSIZE_BITS (-format_length env v) = -format_length env v := by
      apply to_ssize_of_fits _ hb
      · omega
      · have : -(2 ^ (env.SSIZE_BITS - 1)) < format_length env v :=
          lt_of_le_of_ne hlo (Ne.symm hmin)
        omega
    have h63' : -format_length env v < 2 ^ 63 := by
      have : -(2 ^ (env.SSIZE_BITS - 1)) < format_length env v :=
        lt_of_le_of_ne hlo (Ne.symm hmin)
      rcases hb with h | h <;> rw [h] at this <;> norm_num at this ⊢ <;> omega
    unfold f2fs_argv
    rw [if_pos hneg, hfit, snprintf_zd_of_nonneg _ (by omega) h63']
  · intro hpos
    have hdiv0 : 0 ≤ format_length env v / 512 := Int.ediv_nonneg (by omega) (by norm_num)
    have hdiv1 : format_length env v / 512 < 2 ^ 63 := by
      have : format_length env v / 512 ≤ format_length env v :=
        Int.ediv_le_self _ (by omega)
      omega
    unfold f2fs_argv
    rw [if_neg (by omega), snprintf_zd_of_nonneg _ hdiv0 hdiv1]
  · intro hz
    have h0 : snprintf_zd ((0 : Int) / 512) = "0" := by decide
    rw [hz]
    unfold f2fs_argv
    rw [if_neg (by decide), h0]

/-! ## The claims -/

/-- C10 (code defect).  Both `exec_cmd` return `WEXITSTATUS` of the wait
status whatever `WIFEXITED` says.  A child killed by a signal leaves a wait
status whose exit-status bits are zero: for status `9` (`SIGKILL`)
`WIFEXITED` is false, yet both `exec_cmd` return `0`, `format_volume` on an
f2fs volume reports success, and so does `WipeDataExcludeMedia` when the file
pass is killed. -/
theorem exec_cmd_signal_reports_success :
    (∀ path argv w, (Roots.exec_cmd path argv w).1 = WEXITSTATUS (w.outcomes w.tick))
      ∧ (∀ arg args w, (Install.exec_cmd (arg :: args) w).map (fun r => r.1)
          = some (WEXITSTATUS (w.outcomes w.tick)))
      ∧ WIFEXITED 9 = false
      ∧ WEXITSTATUS 9 = 0
      ∧ (Roots.exec_cmd "/sbin/mkfs.f2fs" ["mkfs.f2fs", "-t1", "/dev/block/userdata", "0"]
          (World.start [] [9])).1 = 0
      ∧ (Install.exec_cmd delete_files_args (World.start [] [9])).map (fun r => r.1) = some 0
      ∧ (format_volume table_f2fs "/data" none (World.start [] [9])).1 = 0
      ∧ (WipeDataExcludeMedia table_ext4 none (World.start [] [0, 0, 9, 0])).map
          (fun r => (r.1, r.2.trace))
        = some (true,
            [Event.ui_Print "\n-- Wiping data without internal storage...\n",
             Event.mkdir "/data" true,
             Event.mount "/dev/block/userdata" "/data" "ext4" 0 none true,
             Event.exec "/system/bin/find" delete_files_args 9,
             Event.exec "/system/bin/find" delete_dirs_args 0,
             Event.ui_Print "Data wipe complete.\n"]) := by
  refine ⟨fun _ _ _ => rfl, fun _ _ _ => rfl, ?_⟩
  decide

/-- C5 (code defect).  `find /data -type f ! -path /data/media -delete` tests
the whole path of each entry against the pattern `/data/media`, which only
the path `/data/media` itself matches.  On every tree the file pass removes
exactly the regular files at or under `/data` whose path is not
`/data/media`: every regular file outside the media subtree, and every
regular file inside it as well.  On the sample tree the file pass deletes the
photo below `/data/media`, and the directory pass then removes the emptied
`/data/media/0`. -/
theorem find_passes_delete_below_media :
    (∀ tree : List Find.Node,
        Find.run delete_files_args tree
          = tree.filter (fun n => !(Find.at_or_under DATA_ROOT n.path
              && decide (n.kind = Find.Kind.file) && decide (n.path ≠ WIPE_EXCLUDE_PATH))))
      ∧ Find.run delete_files_args sample_tree =
        [{ path := "/data", kind := Find.Kind.dir },
         { path := "/data/media", kind := Find.Kind.dir },
         { path := "/data/media/0", kind := Find.Kind.dir },
         { path := "/data/app", kind := Find.Kind.dir }]
      ∧ Find.run delete_dirs_args (Find.run delete_files_args sample_tree) =
        [{ path := "/data", kind := Find.Kind.dir },
         { path := "/data/media", kind := Find.Kind.dir }] := by
  refine ⟨file_pass_result, ?_⟩
  decide

/-- C3 (code defect).  `WipeData` with `convert_fbe` set, on a run in which
`mkdir` of the breadcrumb directory succeeds and `fopen` of the breadcrumb
file fails: `EraseVolume` returns at once, and `/tmp/convert_fbe` is still
there when `WipeData` returns. -/
theorem WipeData_leaves_breadcrumb_directory :
    (WipeData table_ext4 true (World.start [] [0, 0, 0, 1])).map
        (fun r => (r.1, r.2.paths, r.2.trace))
      = some (false, ["/tmp/convert_fbe"],
          [Event.ui_Print "\n-- Wiping data...\n",
           Event.PreWipeData true,
           Event.ui_SetBackground_ERASING,
           Event.ui_SetProgressType_INDETERMINATE,
           Event.ui_Print "Formatting /data...\n",
           Event.ensure_volume_unmounted "/dev/block/userdata" true,
           Event.mkdir "/tmp/convert_fbe" true,
           Event.fopen "/tmp/convert_fbe/convert_fbe" false,
           Event.ui_SetBackground_ERASING,
           Event.ui_SetProgressType_INDETERMINATE,
           Event.ReadLogFilesToMemory,
           Event.ui_Print "Formatting /cache...\n",
           Event.ensure_volume_unmounted "/dev/block/cache" true,
           Event.make_ext4fs "/dev/block/cache" 0 "/cache" none none 0,
           Event.RestoreLogFilesAfterFormat
             [{ name := "/cache/recovery/last_log", data := "I:boot" }],
           Event.ui_Print "Data wipe failed.\n"]) := by
  decide

/-- C4.  `ensure_path_mounted` and `ensure_path_unmounted` are idempotent, for
every table, path and world: when a first call succeeds, a second call on the
world the first one left (nothing else has touched it) succeeds too and makes
no call at all, and the two calls together have issued at most one `mount`,
respectively at most one unmount. -/
theorem ensure_path_idempotent (env : Env) (path : String) (w : World) :
    ((ensure_path_mounted env path w).1 = 0 →
        (ensure_path_mounted env path (ensure_path_mounted env path w).2).1 = 0
        ∧ emitted (ensure_path_mounted env path w).2
            (ensure_path_mounted env path (ensure_path_mounted env path w).2).2 = []
        ∧ ((emitted w (ensure_path_mounted env path
              (ensure_path_mounted env path w).2).2).filter Event.is_mount).length ≤ 1)
    ∧ ((ensure_path_unmounted env path w).1 = 0 →
        (ensure_path_unmounted env path (ensure_path_unmounted env path w).2).1 = 0
        ∧ emitted (ensure_path_unmounted env path w).2
            (ensure_path_unmounted env path (ensure_path_unmounted env path w).2).2 = []
        ∧ ((emitted w (ensure_path_unmounted env path
              (ensure_path_unmounted env path w).2).2).filter Event.is_umount).length ≤ 1) := by
  constructor
  · intro h
    obtain ⟨v, hv, hpost⟩ := ensure_path_mounted_post env path w h
    have h2 := ensure_path_mounted_noop env path (ensure_path_mounted env path w).2 v hv hpost
    rw [h2]
    exact ⟨rfl, emitted_self _, ensure_path_mounted_mounts env path w⟩
  · intro h
    obtain ⟨v, hv, hr, hs, hf⟩ := ensure_path_unmounted_post env path w h
    have h2 := ensure_path_unmounted_noop env path (ensure_path_unmounted env path w).2 v hv
      hr hs hf
    rw [h2]
    exact ⟨rfl, emitted_self _, ensure_path_unmounted_umounts env path w⟩

/-- C4, on a run: `/data` of the ext4 table is mounted by the first call (one
`mkdir`, one `mount`), and the first call of `ensure_path_unmounted` on a world
with `/data` mounted succeeds. -/
theorem ensure_path_idempotent_witness :
    (ensure_path_mounted table_ext4 "/data" (World.start [] [])).1 = 0
      ∧ (ensure_path_unmounted table_ext4 "/data"
          (World.start [{ device := "/dev/block/userdata", mount_point := "/data" }] [])).1 = 0
      ∧ (ensure_path_mounted table_ext4 "/data"
          (ensure_path_mounted table_ext4 "/data" (World.start [] [])).2).1 = 0
      ∧ (ensure_path_unmounted table_ext4 "/data"
          (ensure_path_unmounted table_ext4 "/data"
            (World.start [{ device := "/dev/block/userdata", mount_point := "/data" }] [])).2).1
          = 0 :=
  ⟨by decide, by decide,
    ((ensure_path_idempotent table_ext4 "/data" (World.start [] [])).1 (by decide)).1,
    ((ensure_path_idempotent table_ext4 "/data"
      (World.start [{ device := "/dev/block/userdata", mount_point := "/data" }] [])).2
        (by decide)).1⟩

/-- C2, as stated, fails.  `/data` of the f2fs table is not mountable by
`ensure_path_mounted`: the call fails on the unsupported type after it has
created the mount point.  `/sdcard` of the vfat table is not formattable:
`format_volume` fails on the unsupported type after it has unmounted the
card. -/
theorem type_error_after_side_effect :
    (ensure_path_mounted table_f2fs "/data" (World.start [] [])).1 = -1
      ∧ (ensure_path_mounted table_f2fs "/data" (World.start [] [])).2.trace
          = [Event.mkdir "/data" true]
      ∧ (format_volume table_vfat "/sdcard" none
          (World.start [{ device := "/dev/block/mmcblk1p1", mount_point := "/sdcard" }] [])).1
          = -1
      ∧ (format_volume table_vfat "/sdcard" none
          (World.start [{ device := "/dev/block/mmcblk1p1", mount_point := "/sdcard" }] [])).2.trace
          = [Event.umount "/sdcard" true] := by
  decide

/-- C2, amended.  A lookup error leaves the world as it was in all three
operations; so does a ramdisk volume; so does a path error in
`format_volume`.  On a volume of a type the operation does not support,
`ensure_path_mounted` either leaves the world as it was or fails after one
call, the `mkdir` of the volume's mount point, and `format_volume` fails
either with the world as it was or after one call, the unmount of the
volume's mount point that `ensure_path_unmounted` issued. -/
theorem early_errors_have_no_effect (env : Env) (path : String) (w : World) :
    (volume_for_path env path = none →
        ensure_path_mounted env path w = (-1, w)
        ∧ ensure_path_unmounted env path w = (-1, w)
        ∧ ∀ directory, format_volume env path directory w = (-1, w))
    ∧ (∀ v, volume_for_path env path = some v → v.fs_type = "ramdisk" →
        (ensure_path_mounted env path w).2 = w
        ∧ ensure_path_unmounted env path w = (-1, w)
        ∧ ∀ directory, format_volume env path directory w = (-1, w))
    ∧ (∀ v, volume_for_path env path = some v → v.mount_point ≠ path →
        ∀ directory, format_volume env path directory w = (-1, w))
    ∧ (∀ v, volume_for_path env path = some v →
        ¬ (v.fs_type = "ext4" ∨ v.fs_type = "squashfs" ∨ v.fs_type = "vfat") →
        ensure_path_mounted env path w = (0, w)
        ∨ ensure_path_mounted env path w = (-1, w)
        ∨ (ensure_path_mounted env path w = (-1, (sys_mkdir v.mount_point w).2)
          ∧ emitted w (ensure_path_mounted env path w).2
              = [Event.mkdir v.mount_point (sys_mkdir v.mount_point w).1]))
    ∧ (∀ v, volume_for_path env path = some v →
        ¬ (v.fs_type = "ext4" ∨ v.fs_type = "f2fs") →
        ∀ directory, (format_volume env path directory w).1 = -1
          ∧ ((format_volume env path directory w).2 = w
            ∨ ((format_volume env path directory w).2 = (ensure_path_unmounted env path w).2
              ∧ ∃ ok, emitted w (format_volume env path directory w).2
                  = [Event.umount v.mount_point ok]))) := by
  refine ⟨?_, ?_, ?_, ?_, ?_⟩
  · intro h
    simp [ensure_path_mounted, ensure_path_mounted_at, ensure_path_unmounted, format_volume, h]
  · intro v hv hr
    simp [ensure_path_mounted, ensure_path_mounted_at, ensure_path_unmounted, format_volume,
      hv, hr]
  · intro v hv hp directory
    unfold format_volume
    simp only [hv]
    split
    · rfl
    · simp [hp]
  · intro v hv hfs
    have key := emitted_of_trace_eq (sys_mkdir_trace v.mount_point w)
    unfold ensure_path_mounted ensure_path_mounted_at
    simp only [hv, hfs, if_false, Option.getD_none]
    by_cases hr : v.fs_type = "ramdisk"
    · simp [hr]
    · simp only [hr, if_false]
      cases hs : scan_mounted_volumes w with
      | false => simp
      | true =>
        simp only [Bool.not_true, Bool.false_eq_true, if_false]
        cases hf : find_mounted_volume_by_mount_point v.mount_point w with
        | some mv => simp
        | none =>
          simp only []
          right; right
          exact ⟨trivial, key⟩
  · intro v hv hfs directory
    have hun := ensure_path_unmounted_emitted env path w v hv
    by_cases hr : v.fs_type = "ramdisk"
    · have hfv : format_volume env path directory w = (-1, w) := by
        unfold format_volume
        simp [hv, hr]
      rw [hfv]
      exact ⟨rfl, Or.inl rfl⟩
    · by_cases hp : v.mount_point = path
      · have hfv : format_volume env path directory w
            = (-1, (ensure_path_unmounted env path w).2) := by
          unfold format_volume
          simp only [hv, hr, hp, hfs, ne_eq, not_true_eq_false, if_false, ite_self]
        rw [hfv]
        refine ⟨rfl, ?_⟩
        rcases hun with h | h | ⟨ok, h⟩
        · left
          rw [h]
        · left
          rw [h]
        · right
          exact ⟨rfl, ok, h⟩
      · have hfv : format_volume env path directory w = (-1, w) := by
          unfold format_volume
          simp [hv, hr, hp]
        rw [hfv]
        exact ⟨rfl, Or.inl rfl⟩

/-- C2, amended, on runs: `/system` is not in the table, `/tmp` is a ramdisk,
and `/data/media` is not the mount point of the volume it resolves to. -/
theorem early_errors_have_no_effect_witness :
    ensure_path_mounted table_ext4 "/system" (World.start [] []) = (-1, World.start [] [])
      ∧ ensure_path_unmounted table_ext4 "/tmp" (World.start [] []) = (-1, World.start [] [])
      ∧ format_volume table_nested "/data/media" none (World.start [] [])
          = (-1, World.start [] []) :=
  ⟨((early_errors_have_no_effect table_ext4 "/system" (World.start [] [])).1 (by decide)).1,
    ((early_errors_have_no_effect table_ext4 "/tmp" (World.start [] [])).2.1
      { mount_point := "/tmp", fs_type := "ramdisk", blk_device := "ramdisk" }
      (by decide) (by decide)).2.1,
    (early_errors_have_no_effect table_nested "/data/media" (World.start [] [])).2.2.1
      { mount_point := "/data", fs_type := "ext4", blk_device := "/dev/block/userdata" }
      (by decide) (by decide) none⟩

/-- A failed open of a key location ends `format_volume` with failure and
without any formatter call; and on a volume whose `key_loc` is an absolute
path a formatter call is only ever made after that path was opened. -/
theorem format_volume_key_open_failure (env : Env) (volume : String)
    (directory : Option String) (w : World) :
    (∀ k, Event.open_key k false ∈ emitted w (format_volume env volume directory w).2 →
        (format_volume env volume directory w).1 = -1
        ∧ ∀ e ∈ emitted w (format_volume env volume directory w).2, e.is_formatter = false)
    ∧ (∀ v k, volume_for_path env volume = some v → v.key_loc = some k →
        k.toList.head? = some '/' →
        (∃ e ∈ emitted w (format_volume env volume directory w).2, e.is_formatter = true) →
        Event.open_key k true ∈ emitted w (format_volume env volume directory w).2) := by
  obtain ⟨us, hus, h⟩ := format_volume_shape env volume directory w
  have hus_open : ∀ k b, Event.open_key k b ∉ us := by
    intro k b hmem
    have := hus _ hmem
    simp [Event.is_umount] at this
  have hus_fmt : ∀ e ∈ us, e.is_formatter = false := by
    intro e he
    have := hus e he
    cases e <;> simp_all [Event.is_umount, Event.is_formatter]
  rcases h with ⟨hr, ht⟩ | ⟨v, k, hv, _, hk, _, hr, ht⟩ | ⟨v, ks, f, hv, hks, hf, ht⟩
  · rw [emitted_of_trace_eq ht]
    refine ⟨fun k hmem => absurd hmem (hus_open k false), ?_⟩
    rintro v k _ _ _ ⟨e, he, hfe⟩
    rw [hus_fmt e he] at hfe
    cases hfe
  · rw [emitted_of_trace_eq ht]
    refine ⟨fun k2 _ => ⟨hr, ?_⟩, ?_⟩
    · intro e he
      rcases List.mem_append.mp he with h | h
      · exact hus_fmt e h
      · simp only [List.mem_singleton] at h
        subst h
        rfl
    · rintro v2 k2 _ _ _ ⟨e, he, hfe⟩
      rcases List.mem_append.mp he with h | h
      · rw [hus_fmt e h] at hfe
        cases hfe
      · simp only [List.mem_singleton] at h
        subst h
        cases hfe
  · rw [emitted_of_trace_eq ht]
    have hks_open : ∀ k, Event.open_key k false ∉ ks := by
      intro k hmem
      rcases hks with ⟨rfl, _⟩ | ⟨k2, z, _, _, rfl⟩
      · simp at hmem
      · simp at hmem
    have hf_open : ∀ k, Event.open_key k false ≠ f := by
      intro k heq
      rcases hf with ⟨_, result, rfl, _⟩ | ⟨_, status, rfl, _⟩ <;> cases heq
    constructor
    · intro k hmem
      simp only [List.mem_append, List.mem_singleton] at hmem
      rcases hmem with h | h | h
      · exact absurd h (hus_open k false)
      · exact absurd h (hks_open k)
      · exact absurd h (hf_open k)
    · rintro v2 k2 hv2 hk2 ha2 _
      rw [hv] at hv2
      cases hv2
      rcases hks with ⟨_, hno⟩ | ⟨k3, z, hk3, _, rfl⟩
      · exact absurd ⟨k2, hk2, ha2⟩ hno
      · rw [hk2] at hk3
        cases hk3
        simp

/-- The key-location block fails exactly when there is an absolute `key_loc`
and its open fails. -/
theorem wipe_key_loc_fails_iff (v : Volume) (w : World) :
    (wipe_key_loc v w).1 = false ↔
      ∃ k, v.key_loc = some k ∧ k.toList.head? = some '/' ∧ w.outcomes w.tick ≠ 0 := by
  unfold wipe_key_loc
  cases hk : v.key_loc with
  | none => simp
  | some k =>
    simp only []
    by_cases ha : k.toList.head? = some '/'
    · simp only [ha, if_true, World.draw]
      by_cases ho : w.outcomes w.tick = 0
      · constructor
        · intro h
          simp [ho] at h
        · rintro ⟨k2, _, _, h⟩
          exact absurd ho h
      · constructor
        · intro _
          exact ⟨k, rfl, ha, ho⟩
        · intro _
          simp [ho]
    · simp only [ha, if_false]
      constructor
      · intro h
        cases h
      · rintro ⟨k2, h1, h2, _⟩
        cases h1
        exact absurd h2 ha

/-- In every run of `format_volume`, a zero-fill of a key device is followed
at once by the formatter call, whatever the zero-fill returned. -/
theorem format_volume_wipe_then_formatter (env : Env) (volume : String)
    (directory : Option String) (w : World) (k : String) (z : Bool) :
    Event.wipe_block_device k z ∈ emitted w (format_volume env volume directory w).2 ↔
      ∃ before f, emitted w (format_volume env volume directory w).2
          = before ++ [Event.wipe_block_device k z, f]
        ∧ f.is_formatter = true := by
  constructor
  · intro hmem
    obtain ⟨us, hus, h⟩ := format_volume_shape env volume directory w
    have hus_wipe : Event.wipe_block_device k z ∉ us := by
      intro hm
      have := hus _ hm
      simp [Event.is_umount] at this
    rcases h with ⟨_, ht⟩ | ⟨v, k2, _, _, _, _, _, ht⟩ | ⟨v, ks, f, _, hks, hf, ht⟩
    · rw [emitted_of_trace_eq ht] at hmem
      exact absurd hmem hus_wipe
    · rw [emitted_of_trace_eq ht] at hmem
      rcases List.mem_append.mp hmem with h | h
      · exact absurd h hus_wipe
      · simp at h
    · rw [emitted_of_trace_eq ht] at hmem ⊢
      have hff : f.is_formatter = true := by
        rcases hf with ⟨_, result, rfl, _⟩ | ⟨_, status, rfl, _⟩ <;> rfl
      simp only [List.mem_append, List.mem_singleton] at hmem
      rcases hmem with h | h | h
      · exact absurd h hus_wipe
      · rcases hks with ⟨rfl, _⟩ | ⟨k3, z3, _, _, rfl⟩
        · simp at h
        · simp only [List.mem_cons, List.mem_singleton, List.not_mem_nil, or_false,
            Event.wipe_block_device.injEq, reduceCtorEq, false_or] at h
          obtain ⟨rfl, rfl⟩ := h
          exact ⟨us ++ [Event.open_key k true], f, by simp, hff⟩
      · subst h
        cases hff
  · rintro ⟨before, f, h, _⟩
    rw [h]
    simp

/-- C6 (code defect).  `format_volume` checks the open of the key device and
nothing else: the key-location block fails exactly when `key_loc` is an
absolute path and its open fails, and in every run a zero-fill of a key
device, whatever it returned, is followed at once by the formatter call.  On
the keyed table the key device opens, its zero-fill fails, and
`format_volume` still runs the ext4 formatter and returns success. -/
theorem format_volume_ignores_wipe_failure :
    (∀ (v : Volume) (w : World),
        (wipe_key_loc v w).1 = false ↔
          ∃ k, v.key_loc = some k ∧ k.toList.head? = some '/' ∧ w.outcomes w.tick ≠ 0)
      ∧ (∀ (env : Env) (volume : String) (directory : Option String) (w : World)
          (k : String) (z : Bool),
          Event.wipe_block_device k z ∈ emitted w (format_volume env volume directory w).2 ↔
            ∃ before f, emitted w (format_volume env volume directory w).2
                = before ++ [Event.wipe_block_device k z, f]
              ∧ f.is_formatter = true)
      ∧ (format_volume table_keyed "/data" none (World.start [] [0, 1, 0])).1 = 0
      ∧ (format_volume table_keyed "/data" none (World.start [] [0, 1, 0])).2.trace
          = [Event.open_key "/dev/block/metadata" true,
             Event.wipe_block_device "/dev/block/metadata" false,
             Event.make_ext4fs "/dev/block/userdata" 0 "/data" none none 0] := by
  refine ⟨wipe_key_loc_fails_iff, format_volume_wipe_then_formatter, ?_⟩
  decide

/-- C7, as stated, fails.  For the f2fs `/data` of length `0` without
`key_loc` the format length is `0`, and `mkfs.f2fs` is run with the device
followed by the sector count `0`, not with the device alone.  For the
smallest 64-bit length the byte count after `-r` is not `-length`: negation
gives the same value back and `char[20]` cuts its last digit.  On a target
with a 32-bit `ssize_t` a `Volume.length` of `2^32 + 1024` becomes a format
length of `1024`, two sectors. -/
theorem f2fs_zero_length_passes_count :
    format_length table_f2fs
        { mount_point := "/data", fs_type := "f2fs", blk_device := "/dev/block/userdata" } = 0
      ∧ (format_volume table_f2fs "/data" none (World.start [] [])).2.trace
          = [Event.exec "/sbin/mkfs.f2fs"
              ["mkfs.f2fs", "-t1", "/dev/block/userdata", "0"] 0]
      ∧ f2fs_argv 64 "/dev/block/userdata" 0 ≠ ["mkfs.f2fs", "-t1", "/dev/block/userdata"]
      ∧ (format_volume table_f2fs_min "/data" none (World.start [] [])).2.trace
          = [Event.exec "/sbin/mkfs.f2fs"
              ["mkfs.f2fs", "-t1", "-r", "-922337203685477580", "/dev/block/userdata"] 0]
      ∧ (format_volume table_f2fs_32 "/data" none (World.start [] [])).2.trace
          = [Event.exec "/sbin/mkfs.f2fs"
              ["mkfs.f2fs", "-t1", "/dev/block/userdata", "2"] 0] := by
  decide

/-- C7, amended.  On a target whose `ssize_t` has 32 or 64 bits, for every
f2fs volume: the format length is `Volume.length` if that is non-zero and fits
an `ssize_t`, else `-CRYPT_FOOTER_OFFSET` if `Volume.length` is zero and
`key_loc` is `"footer"`, else `0` if `Volume.length` is zero; every
formatter call `format_volume` makes is `/sbin/mkfs.f2fs` with, after
`mkfs.f2fs -t1`: for a negative length other than the smallest `ssize_t`,
`-r`, the byte count `-length`, the device; for a positive length the device
and the sector count `length/512`; for a zero length the device and the
sector count `0`.  A successful `format_volume` has made that call. -/
theorem format_volume_f2fs_arguments (env : Env) (volume : String)
    (directory : Option String) (w : World) (v : Volume)
    (hv : volume_for_path env volume = some v) (hfs : v.fs_type = "f2fs")
    (hbits : env.SSIZE_BITS = 32 ∨ env.SSIZE_BITS = 64) :
    ((v.length ≠ 0 → -(2 ^ (env.SSIZE_BITS - 1)) ≤ v.length →
          v.length < 2 ^ (env.SSIZE_BITS - 1) → format_length env v = v.length)
      ∧ (v.length = 0 → v.key_loc = some "footer" →
          -(2 ^ (env.SSIZE_BITS - 1)) ≤ -env.CRYPT_FOOTER_OFFSET →
          -env.CRYPT_FOOTER_OFFSET < 2 ^ (env.SSIZE_BITS - 1) →
          format_length env v = -env.CRYPT_FOOTER_OFFSET)
      ∧ (v.length = 0 → v.key_loc ≠ some "footer" → format_length env v = 0))
    ∧ (∀ e ∈ emitted w (format_volume env volume directory w).2, e.is_formatter = true →
        ∃ status argv, e = Event.exec "/sbin/mkfs.f2fs" argv status
          ∧ (format_length env v < 0 →
              format_length env v ≠ -(2 ^ (env.SSIZE_BITS - 1)) →
              argv = ["mkfs.f2fs", "-t1", "-r", toString (-format_length env v),
                      v.blk_device])
          ∧ (0 < format_length env v →
              argv = ["mkfs.f2fs", "-t1", v.blk_device,
                      toString (format_length env v / 512)])
          ∧ (format_length env v = 0 →
              argv = ["mkfs.f2fs", "-t1", v.blk_device, "0"]))
    ∧ ((format_volume env volume directory w).1 = 0 →
        ∃ e ∈ emitted w (format_volume env volume directory w).2, e.is_formatter = true) := by
  refine ⟨⟨?_, ?_, ?_⟩, ?_, ?_⟩
  · intro hne hlo hhi
    unfold format_length
    rw [if_pos hne]
    exact to_ssize_of_fits _ hbits _ hlo hhi
  · intro hz hk hlo hhi
    unfold format_length
    rw [if_neg (by simpa using hz), if_pos hk]
    exact to_ssize_of_fits _ hbits _ hlo hhi
  · intro hz hk
    unfold format_length
    rw [if_neg (by simpa using hz), if_neg hk]
  · obtain ⟨us, hus, h⟩ := format_volume_shape env volume directory w
    have hus_fmt : ∀ e ∈ us, e.is_formatter = false := by
      intro e he
      have := hus e he
      cases e <;> simp_all [Event.is_umount, Event.is_formatter]
    intro e he hfe
    rcases h with ⟨_, ht⟩ | ⟨v2, k, _, _, _, _, _, ht⟩ | ⟨v2, ks, f, hv2, hks, hf, ht⟩
    · rw [emitted_of_trace_eq ht] at he
      rw [hus_fmt e he] at hfe
      cases hfe
    · rw [emitted_of_trace_eq ht] at he
      rcases List.mem_append.mp he with h | h
      · rw [hus_fmt e h] at hfe
        cases hfe
      · simp only [List.mem_singleton] at h
        subst h
        cases hfe
    · rw [emitted_of_trace_eq ht] at he
      rw [hv] at hv2
      cases hv2
      simp only [List.mem_append, List.mem_singleton] at he
      rcases he with h | h | h
      · rw [hus_fmt e h] at hfe
        cases hfe
      · rcases hks with ⟨rfl, _⟩ | ⟨k3, z, _, _, rfl⟩
        · simp at h
        · simp only [List.mem_cons, List.mem_singleton, List.not_mem_nil, or_false] at h
          rcases h with rfl | rfl <;> cases hfe
      · subst h
        rcases hf with ⟨h4, _⟩ | ⟨_, status, rfl, _⟩
        · rw [hfs] at h4
          exact absurd h4 (by decide)
        · obtain ⟨h1, h2, h3⟩ := f2fs_argv_cases env v hbits
          exact ⟨status, _, rfl, h1, h2, h3⟩
  · intro h0
    obtain ⟨us, hus, h⟩ := format_volume_shape env volume directory w
    rcases h with ⟨hr, _⟩ | ⟨v2, k, _, _, _, _, hr, _⟩ | ⟨v2, ks, f, hv2, hks, hf, ht⟩
    · rw [hr] at h0
      cases h0
    · rw [hr] at h0
      cases h0
    · refine ⟨f, ?_, ?_⟩
      · rw [emitted_of_trace_eq ht]
        simp
      · rcases hf with ⟨_, result, rfl, _⟩ | ⟨_, status, rfl, _⟩ <;> rfl

/-- C7, amended, on a run: a footer-encrypted f2fs volume is formatted with
`-r 16384` before the device. -/
theorem format_volume_f2fs_arguments_witness :
    (format_volume table_footer "/data" none (World.start [] [])).2.trace
      = [Event.exec "/sbin/mkfs.f2fs"
          ["mkfs.f2fs", "-t1", "-r", "16384", "/dev/block/userdata"] 0]
    ∧ format_length table_footer
        { mount_point := "/data", fs_type := "f2fs", blk_device := "/dev/block/userdata",
          key_loc := some "footer" } = -16384
    ∧ ∃ e ∈ emitted (World.start [] [])
        (format_volume table_footer "/data" none (World.start [] [])).2,
        e.is_formatter = true :=
  ⟨by decide,
    (format_volume_f2fs_arguments table_footer "/data" none (World.start [] [])
      { mount_point := "/data", fs_type := "f2fs", blk_device := "/dev/block/userdata",
        key_loc := some "footer" }
      (by decide) (by decide) (by decide)).1.2.1 (by decide) (by decide) (by decide)
      (by decide),
    (format_volume_f2fs_arguments table_footer "/data" none (World.start [] [])
      { mount_point := "/data", fs_type := "f2fs", blk_device := "/dev/block/userdata",
        key_loc := some "footer" }
      (by decide) (by decide) (by decide)).2.2 (by decide)⟩

/-- C1.  On every table that contains `/data` and for every outcome of every
call, `WipeData` returns, and with `d`, `c`, `m` the outcomes of the erase of
`/data`, of `/cache` (true when the table has none) and of `/metadata` (true
when the table has none), each run on the world its predecessor left: the
result is true exactly when `PreWipeData`, the three erases and
`PostWipeData` all succeed; after a successful `PreWipeData` the erase of
every present volume is started (its progress line is in the trace),
whatever the earlier ones returned; `PostWipeData` is called exactly when
`PreWipeData` and the three erases succeeded; and after a failed
`PreWipeData` nothing follows but the closing line. -/
theorem WipeData_success_iff (env : Env) (convert_fbe : Bool) (w : World)
    (hdata : (env.volume_for_mount_point DATA_ROOT).isSome = true) :
    ∃ (r d c m : Bool) (w' wd wc wm : World),
      WipeData env convert_fbe w = some (r, w')
      ∧ EraseVolume env DATA_ROOT convert_fbe
          (PreWipeData (ui_Print "\n-- Wiping data...\n" w)).2 = some (d, wd)
      ∧ (if (env.volume_for_mount_point "/cache").isSome = true then
          EraseVolume env CACHE_ROOT false wd = some (c, wc)
        else (c, wc) = (true, wd))
      ∧ (if (env.volume_for_mount_point METADATA_ROOT).isSome = true then
          EraseVolume env METADATA_ROOT false wc = some (m, wm)
        else (m, wm) = (true, wc))
      ∧ (r = true ↔
          (PreWipeData (ui_Print "\n-- Wiping data...\n" w)).1 = true
            ∧ d = true ∧ c = true ∧ m = true ∧ (PostWipeData wm).1 = true)
      ∧ ((PreWipeData (ui_Print "\n-- Wiping data...\n" w)).1 = true →
          Event.ui_Print (formatting_line DATA_ROOT) ∈ emitted w w'
          ∧ ((env.volume_for_mount_point "/cache").isSome = true →
              Event.ui_Print (formatting_line CACHE_ROOT) ∈ emitted w w')
          ∧ ((env.volume_for_mount_point METADATA_ROOT).isSome = true →
              Event.ui_Print (formatting_line METADATA_ROOT) ∈ emitted w w'))
      ∧ ((∃ ok, Event.PostWipeData ok ∈ emitted w w') ↔
          (PreWipeData (ui_Print "\n-- Wiping data...\n" w)).1 = true
            ∧ d = true ∧ c = true ∧ m = true)
      ∧ ((PreWipeData (ui_Print "\n-- Wiping data...\n" w)).1 = false →
          emitted w w' =
            [Event.ui_Print "\n-- Wiping data...\n", Event.PreWipeData false,
             Event.ui_Print (data_wipe_line false)]) := by
  obtain ⟨r, d, c, m, w', wd, wc, wm, ed, ec, em, hed, hfd, hcs, hms, hh, hrun, hr, ht⟩ :=
    WipeData_run env convert_fbe w hdata
  have hem := emitted_of_trace_eq ht
  refine ⟨r, d, c, m, w', wd, wc, wm, hrun, hed, ?_, ?_, ?_, ?_, ?_, ?_⟩
  · exact ite_and_left hcs
  · exact ite_and_left hms
  · rw [hr]
    simp only [Bool.and_eq_true, and_assoc]
  · intro hp
    rw [hem]
    simp only [hp, if_true]
    refine ⟨by simp [hfd], ?_, ?_⟩
    · intro hc
      simp only [hc, if_true] at hcs
      simp [hcs.2]
    · intro hm
      simp only [hm, if_true] at hms
      simp [hms.2]
  · rw [hem]
    constructor
    · rintro ⟨ok, hmem⟩
      by_cases hp : (PreWipeData (ui_Print "\n-- Wiping data...\n" w)).1 = true
      · by_cases hall : (d && c && m) = true
        · simp only [Bool.and_eq_true] at hall
          exact ⟨hp, hall.1.1, hall.1.2, hall.2⟩
        · exfalso
          simp only [hp, hall, Bool.false_eq_true, if_true, if_false, List.append_nil,
            List.mem_append, List.mem_cons, List.mem_singleton, List.not_mem_nil,
            or_false] at hmem
          rcases hmem with ((h | h) | h) | h
          · cases h
          · cases h
          · have := hh _ (by simpa only [List.mem_append] using h)
            cases this
          · cases h
      · exfalso
        simp [hp] at hmem
    · rintro ⟨hp, hd, hc, hm⟩
      refine ⟨(PostWipeData wm).1, ?_⟩
      simp [hp, hd, hc, hm]
  · intro hp
    rw [hem, hr]
    simp [hp]

/-- C1, on a run: on the ext4 table, with every step succeeding, `WipeData`
returns true. -/
theorem WipeData_success_iff_witness :
    (WipeData table_ext4 false (World.start [] [])).map (fun r => r.1) = some true
      ∧ ∃ (r d c m : Bool) (w' wd wc wm : World),
        WipeData table_ext4 false (World.start [] []) = some (r, w')
        ∧ EraseVolume table_ext4 DATA_ROOT false
          (PreWipeData (ui_Print "\n-- Wiping data...\n" (World.start [] []))).2
            = some (d, wd)
        ∧ EraseVolume table_ext4 CACHE_ROOT false wd = some (c, wc)
        ∧ (m, wm) = (true, wc)
        ∧ (r = true ↔
          (PreWipeData (ui_Print "\n-- Wiping data...\n" (World.start [] []))).1 = true
            ∧ d = true ∧ c = true ∧ m = true ∧ (PostWipeData wm).1 = true) := by
  refine ⟨by decide, ?_⟩
  obtain ⟨r, d, c, m, w', wd, wc, wm, h1, h2, h3, h4, h5, _⟩ :=
    WipeData_success_iff table_ext4 false (World.start [] []) (by decide)
  exact ⟨r, d, c, m, w', wd, wc, wm, h1, h2, h3, h4, h5⟩

/-- C9, as stated, fails.  On the ext4 table `PreWipeData` succeeds and the
forced unmount of `/data` fails: `/cache` is still erased, but `PostWipeData`
is not called. -/
theorem WipeData_skips_post_hook_after_failure :
    (WipeData table_ext4 false (World.start [] [0, 1])).map (fun r => (r.1, r.2.trace))
      = some (false,
          [Event.ui_Print "\n-- Wiping data...\n",
           Event.PreWipeData true,
           Event.ui_SetBackground_ERASING,
           Event.ui_SetProgressType_INDETERMINATE,
           Event.ui_Print "Formatting /data...\n",
           Event.ensure_volume_unmounted "/dev/block/userdata" false,
           Event.ui_SetBackground_ERASING,
           Event.ui_SetProgressType_INDETERMINATE,
           Event.ReadLogFilesToMemory,
           Event.ui_Print "Formatting /cache...\n",
           Event.ensure_volume_unmounted "/dev/block/cache" true,
           Event.make_ext4fs "/dev/block/cache" 0 "/cache" none none 0,
           Event.RestoreLogFilesAfterFormat
             [{ name := "/cache/recovery/last_log", data := "I:boot" }],
           Event.ui_Print "Data wipe failed.\n"]) := by
  decide

/-- C9, amended.  On every table that contains `/data`, when `PreWipeData`
succeeds `WipeData` starts the erase of `/data`, then of `/cache` if the table
has it, then of `/metadata` if the table has it, in that order and whatever
the earlier erases returned; `PostWipeData` is called only if every one of
these erases succeeded, and then its answer is the result. -/
theorem WipeData_runs_every_erase (env : Env) (convert_fbe : Bool) (w : World)
    (hdata : (env.volume_for_mount_point DATA_ROOT).isSome = true)
    (hpre : (PreWipeData (ui_Print "\n-- Wiping data...\n" w)).1 = true) :
    ∃ (r d c m : Bool) (w' wd wc wm : World),
      WipeData env convert_fbe w = some (r, w')
      ∧ EraseVolume env DATA_ROOT convert_fbe
          (PreWipeData (ui_Print "\n-- Wiping data...\n" w)).2 = some (d, wd)
      ∧ (if (env.volume_for_mount_point "/cache").isSome = true then
          EraseVolume env CACHE_ROOT false wd = some (c, wc)
        else (c, wc) = (true, wd))
      ∧ (if (env.volume_for_mount_point METADATA_ROOT).isSome = true then
          EraseVolume env METADATA_ROOT false wc = some (m, wm)
        else (m, wm) = (true, wc))
      ∧ List.Sublist
          ([Event.ui_Print (formatting_line DATA_ROOT)]
            ++ (if (env.volume_for_mount_point "/cache").isSome = true then
                  [Event.ui_Print (formatting_line CACHE_ROOT)] else [])
            ++ (if (env.volume_for_mount_point METADATA_ROOT).isSome = true then
                  [Event.ui_Print (formatting_line METADATA_ROOT)] else []))
          (emitted w w')
      ∧ (∀ ok, Event.PostWipeData ok ∈ emitted w w' →
          d = true ∧ c = true ∧ m = true ∧ r = ok)
      ∧ ((d && c && m) = false →
          r = false ∧ ∀ ok, Event.PostWipeData ok ∉ emitted w w') := by
  obtain ⟨r, d, c, m, w', wd, wc, wm, ed, ec, em, hed, hfd, hcs, hms, hh, hrun, hr, ht⟩ :=
    WipeData_run env convert_fbe w hdata
  have hem := emitted_of_trace_eq ht
  simp only [hpre, if_true] at hem
  have hnot : ∀ ok, Event.PostWipeData ok ∉ ed ++ ec ++ em := by
    intro ok hmem
    have := hh _ hmem
    cases this
  refine ⟨r, d, c, m, w', wd, wc, wm, hrun, hed, ?_, ?_, ?_, ?_, ?_⟩
  · exact ite_and_left hcs
  · exact ite_and_left hms
  · rw [hem]
    have h1 : List.Sublist [Event.ui_Print (formatting_line DATA_ROOT)] ed :=
      List.singleton_sublist.mpr hfd
    have h2 : List.Sublist
        (if (env.volume_for_mount_point "/cache").isSome = true then
          [Event.ui_Print (formatting_line CACHE_ROOT)] else []) ec := by
      split
      · rename_i h
        simp only [h, if_true] at hcs
        exact List.singleton_sublist.mpr hcs.2
      · exact List.nil_sublist _
    have h3 : List.Sublist
        (if (env.volume_for_mount_point METADATA_ROOT).isSome = true then
          [Event.ui_Print (formatting_line METADATA_ROOT)] else []) em := by
      split
      · rename_i h
        simp only [h, if_true] at hms
        exact List.singleton_sublist.mpr hms.2
      · exact List.nil_sublist _
    have h123 := (h1.append h2).append h3
    refine List.Sublist.trans h123 ?_
    refine List.Sublist.trans ?_ (List.sublist_append_left _ _)
    refine List.Sublist.trans ?_ (List.sublist_append_right _ _)
    exact List.sublist_append_left _ _
  · intro ok hmem
    rw [hem] at hmem
    by_cases hall : (d && c && m) = true
    · simp only [hall, if_true, List.mem_append, List.mem_cons, List.mem_singleton,
        List.not_mem_nil, or_false] at hmem
      have hall2 := hall
      simp only [Bool.and_eq_true] at hall2
      refine ⟨hall2.1.1, hall2.1.2, hall2.2, ?_⟩
      rcases hmem with ((h | h) | (h | h)) | h
      · cases h
      · cases h
      · exact absurd (by simpa only [List.mem_append] using h) (hnot ok)
      · cases h
        rw [hr]
        simp [hpre, hall2.1.1, hall2.1.2, hall2.2]
      · cases h
    · exfalso
      simp only [hall, Bool.false_eq_true, if_false, List.append_nil, List.mem_append,
        List.mem_cons, List.mem_singleton, List.not_mem_nil, or_false] at hmem
      rcases hmem with ((h | h) | h) | h
      · cases h
      · cases h
      · exact absurd (by simpa only [List.mem_append] using h) (hnot ok)
      · cases h
  · intro hall
    refine ⟨?_, ?_⟩
    · rw [hr]
      simp only [hpre, Bool.true_and]
      rw [hall]
      rfl
    · intro ok hmem
      rw [hem] at hmem
      simp only [hall, Bool.false_eq_true, if_false, List.append_nil, List.mem_append,
        List.mem_cons, List.mem_singleton, List.not_mem_nil, or_false] at hmem
      rcases hmem with ((h | h) | h) | h
      · cases h
      · cases h
      · exact absurd (by simpa only [List.mem_append] using h) (hnot ok)
      · cases h

/-- C9, amended, on a run: on the ext4 table `PreWipeData` succeeds, the erase
of `/data` fails, and the erase of `/cache` is started all the same. -/
theorem WipeData_runs_every_erase_witness :
    (PreWipeData (ui_Print "\n-- Wiping data...\n" (World.start [] [0, 1]))).1 = true
      ∧ ∃ (r : Bool) (w' : World),
        WipeData table_ext4 false (World.start [] [0, 1]) = some (r, w')
        ∧ List.Sublist
            [Event.ui_Print (formatting_line DATA_ROOT),
             Event.ui_Print (formatting_line CACHE_ROOT)]
            (emitted (World.start [] [0, 1]) w') := by
  refine ⟨by decide, ?_⟩
  obtain ⟨r, d, c, m, w', wd, wc, wm, h1, _, _, _, h5, _⟩ :=
    WipeData_runs_every_erase table_ext4 false (World.start [] [0, 1]) (by decide) (by decide)
  exact ⟨r, w', h1, h5⟩

end Recovery
